import Mathlib

/-! Verification development for `liasece/log`.

A shallow embedding of the Go package `github.com/liasece/log` (files `logger.go`,
`log.go`, `field.go`, `encoder/terminal_check_windows.go`) and theorems about it.

External collaborators (`go.uber.org/zap`, `sentry-go`, the Go runtime and the
`time` package) are modelled as far as the embedded functions observe them; each
such model says so in its doc comment.
-/

set_option autoImplicit false

/-! ## zapcore: severities -/

namespace zapcore

/-- The severities of `zapcore.Level`, in increasing order. -/
inductive Level
  | DebugLevel
  | InfoLevel
  | WarnLevel
  | ErrorLevel
  | DPanicLevel
  | PanicLevel
  | FatalLevel
  deriving DecidableEq, Repr

/-- The numeric value of a `zapcore.Level` (`DebugLevel = -1`, `InfoLevel = 0`, ...). -/
def Level.toInt : Level → Int
  | .DebugLevel => -1
  | .InfoLevel => 0
  | .WarnLevel => 1
  | .ErrorLevel => 2
  | .DPanicLevel => 3
  | .PanicLevel => 4
  | .FatalLevel => 5

/-- `Level.Enabled`: a level used as an enabler accepts `lvl` when `lvl >= l`. -/
def Level.Enabled (l lvl : Level) : Bool :=
  decide (l.toInt ≤ lvl.toInt)

end zapcore

/-! ## Go values observed by the package -/

/-- The Go type `bool`. -/
abbrev GoBool := Bool

/-- The Go type `string`. -/
abbrev GoString := String

/-- A Go signed integer (`int`, `int8`, ..., `int64`), carried as its numeric value. -/
abbrev GoInt := Int

/-- A Go unsigned integer (`uint`, `uint8`, ..., `uint64`, `uintptr`), carried as its
numeric value. -/
abbrev GoUint := Nat

/-- A Go `time.Duration`: a count of nanoseconds. -/
abbrev GoDuration := Int

/-- A Go `float64`, carried as its IEEE-754 bit pattern. -/
structure GoFloat64 where
  bits : Nat
  deriving DecidableEq, Repr

/-- A Go `float32`, carried as its IEEE-754 bit pattern. -/
structure GoFloat32 where
  bits : Nat
  deriving DecidableEq, Repr

/-- A Go `complex128`: real and imaginary `float64` parts. -/
structure GoComplex128 where
  re : GoFloat64
  im : GoFloat64
  deriving DecidableEq, Repr

/-- A Go `complex64`: real and imaginary `float32` parts. -/
structure GoComplex64 where
  re : GoFloat32
  im : GoFloat32
  deriving DecidableEq, Repr

/-- A Go `interface{}` value as far as this package inspects it: the nil interface, a
string, an `error` (by its message) or any other dynamic value (by an identifier). -/
inductive GoValue
  | nil
  | str (s : String)
  | err (msg : String)
  | other (id : Nat)
  deriving DecidableEq, Repr

/-- A Go run-time panic raised by the embedded code itself. -/
inductive RuntimePanic
  | nilDereference
  deriving DecidableEq, Repr

/-- A Go pointer `*T`: nil, or the address of a cell holding `v`. -/
inductive Ptr (α : Type)
  | nil
  | addr (v : α)
  deriving DecidableEq, Repr

/-- The test `p == nil`. -/
def Ptr.isNil {α : Type} : Ptr α → Bool
  | .nil => true
  | .addr _ => false

/-- The dereference `*p`, which panics on a nil pointer. -/
def Ptr.deref {α : Type} : Ptr α → Except RuntimePanic α
  | .nil => .error .nilDereference
  | .addr v => .ok v

/-! ## zap: fields -/

namespace zap

/-- A `zap.Field` as built by the constructors of `go.uber.org/zap` that `field.go`
calls: the constructor applied, its key and its payload. Integer payloads carry the
numeric value. -/
inductive Field
  | Skip
  | Bool (key : GoString) (val : GoBool)
  | Complex128 (key : GoString) (val : GoComplex128)
  | Complex64 (key : GoString) (val : GoComplex64)
  | Float64 (key : GoString) (val : GoFloat64)
  | Float32 (key : GoString) (val : GoFloat32)
  | Int64 (key : GoString) (val : GoInt)
  | Int32 (key : GoString) (val : GoInt)
  | Int16 (key : GoString) (val : GoInt)
  | Int8 (key : GoString) (val : GoInt)
  | String (key : GoString) (val : GoString)
  | Uint64 (key : GoString) (val : GoUint)
  | Uint32 (key : GoString) (val : GoUint)
  | Uint16 (key : GoString) (val : GoUint)
  | Uint8 (key : GoString) (val : GoUint)
  | Uintptr (key : GoString) (val : GoUint)
  | Duration (key : GoString) (val : GoDuration)
  | Reflect (key : GoString) (val : GoValue)
  | NamedError (key : GoString) (err : GoValue)
  deriving DecidableEq, Repr

/-- `zap.NamedError(key, err)`: the no-op field of `zap.Skip()` for a nil error, else the
field that carries the error under the key. -/
def NamedError (key : GoString) (err : GoValue) : Field :=
  if err = GoValue.nil then Field.Skip else Field.NamedError key err

end zap

/-! ## field.go -/

namespace field

/-- `Reflect(key, val)` forwards to `zap.Reflect`. -/
def Reflect (key : GoString) (val : GoValue) : zap.Field := zap.Field.Reflect key val

/-- `nilField(key)` is `Reflect(key, nil)`. -/
def nilField (key : GoString) : zap.Field := Reflect key GoValue.nil

/-- `NamedError(key, err)` forwards to `zap.NamedError`. -/
def NamedError (key : GoString) (err : GoValue) : zap.Field := zap.NamedError key err

/-- `Bool(key, val)` forwards to `zap.Bool`. -/
def Bool (key : GoString) (val : GoBool) : zap.Field := zap.Field.Bool key val

/-- `Boolp(key, val)`: the nil field for a nil pointer, else `Bool(key, *val)`. -/
def Boolp (key : GoString) (val : Ptr GoBool) : Except RuntimePanic zap.Field :=
  if val.isNil then
    pure (nilField key)
  else do
    let v ← val.deref
    pure (Bool key v)

/-- `Complex128(key, val)` forwards to `zap.Complex128`. -/
def Complex128 (key : GoString) (val : GoComplex128) : zap.Field := zap.Field.Complex128 key val

/-- `Complex128p(key, val)`: the nil field for a nil pointer, else `Complex128(key, *val)`. -/
def Complex128p (key : GoString) (val : Ptr GoComplex128) : Except RuntimePanic zap.Field :=
  if val.isNil then
    pure (nilField key)
  else do
    let v ← val.deref
    pure (Complex128 key v)

/-- `Complex64(key, val)` forwards to `zap.Complex64`. -/
def Complex64 (key : GoString) (val : GoComplex64) : zap.Field := zap.Field.Complex64 key val

/-- `Complex64p(key, val)`: the nil field for a nil pointer, else `Complex64(key, *val)`. -/
def Complex64p (key : GoString) (val : Ptr GoComplex64) : Except RuntimePanic zap.Field :=
  if val.isNil then
    pure (nilField key)
  else do
    let v ← val.deref
    pure (Complex64 key v)

/-- `Float64(key, val)` forwards to `zap.Float64`. -/
def Float64 (key : GoString) (val : GoFloat64) : zap.Field := zap.Field.Float64 key val

/-- `Float64p(key, val)`: the nil field for a nil pointer, else `Float64(key, *val)`. -/
def Float64p (key : GoString) (val : Ptr GoFloat64) : Except RuntimePanic zap.Field :=
  if val.isNil then
    pure (nilField key)
  else do
    let v ← val.deref
    pure (Float64 key v)

/-- `Float32(key, val)` forwards to `zap.Float32`. -/
def Float32 (key : GoString) (val : GoFloat32) : zap.Field := zap.Field.Float32 key val

/-- `Float32p(key, val)`: the nil field for a nil pointer, else `Float32(key, *val)`. -/
def Float32p (key : GoString) (val : Ptr GoFloat32) : Except RuntimePanic zap.Field :=
  if val.isNil then
    pure (nilField key)
  else do
    let v ← val.deref
    pure (Float32 key v)

/-- `Int64(key, val)` forwards to `zap.Int64`. -/
def Int64 (key : GoString) (val : GoInt) : zap.Field := zap.Field.Int64 key val

/-- `Int64p(key, val)`: the nil field for a nil pointer, else `Int64(key, *val)`. -/
def Int64p (key : GoString) (val : Ptr GoInt) : Except RuntimePanic zap.Field :=
  if val.isNil then
    pure (nilField key)
  else do
    let v ← val.deref
    pure (Int64 key v)

/-- `Int(key, val)` is `Int64(key, int64(val))`; the conversion keeps the numeric value. -/
def Int (key : GoString) (val : GoInt) : zap.Field := Int64 key val

/-- `Intp(key, val)`: the nil field for a nil pointer, else `Int(key, *val)`. -/
def Intp (key : GoString) (val : Ptr GoInt) : Except RuntimePanic zap.Field :=
  if val.isNil then
    pure (nilField key)
  else do
    let v ← val.deref
    pure (Int key v)

/-- `Int32(key, val)` forwards to `zap.Int32`. -/
def Int32 (key : GoString) (val : GoInt) : zap.Field := zap.Field.Int32 key val

/-- `Int32p(key, val)`: the nil field for a nil pointer, else `Int32(key, *val)`. -/
def Int32p (key : GoString) (val : Ptr GoInt) : Except RuntimePanic zap.Field :=
  if val.isNil then
    pure (nilField key)
  else do
    let v ← val.deref
    pure (Int32 key v)

/-- `Int16(key, val)` forwards to `zap.Int16`. -/
def Int16 (key : GoString) (val : GoInt) : zap.Field := zap.Field.Int16 key val

/-- `Int16p(key, val)`: the nil field for a nil pointer, else `Int16(key, *val)`. -/
def Int16p (key : GoString) (val : Ptr GoInt) : Except RuntimePanic zap.Field :=
  if val.isNil then
    pure (nilField key)
  else do
    let v ← val.deref
    pure (Int16 key v)

/-- `Int8(key, val)` forwards to `zap.Int8`. -/
def Int8 (key : GoString) (val : GoInt) : zap.Field := zap.Field.Int8 key val

/-- `Int8p(key, val)`: the nil field for a nil pointer, else `Int8(key, *val)`. -/
def Int8p (key : GoString) (val : Ptr GoInt) : Except RuntimePanic zap.Field :=
  if val.isNil then
    pure (nilField key)
  else do
    let v ← val.deref
    pure (Int8 key v)

/-- `String(key, val)` forwards to `zap.String`. -/
def String (key : GoString) (val : GoString) : zap.Field := zap.Field.String key val

/-- `Stringp(key, val)`: the nil field for a nil pointer, else `String(key, *val)`. -/
def Stringp (key : GoString) (val : Ptr GoString) : Except RuntimePanic zap.Field :=
  if val.isNil then
    pure (nilField key)
  else do
    let v ← val.deref
    pure (String key v)

/-- `Uint64(key, val)` forwards to `zap.Uint64`. -/
def Uint64 (key : GoString) (val : GoUint) : zap.Field := zap.Field.Uint64 key val

/-- `Uint64p(key, val)`: the nil field for a nil pointer, else `Uint64(key, *val)`. -/
def Uint64p (key : GoString) (val : Ptr GoUint) : Except RuntimePanic zap.Field :=
  if val.isNil then
    pure (nilField key)
  else do
    let v ← val.deref
    pure (Uint64 key v)

/-- `Uint(key, val)` is `Uint64(key, uint64(val))`; the conversion keeps the numeric value. -/
def Uint (key : GoString) (val : GoUint) : zap.Field := Uint64 key val

/-- `Uintp(key, val)`: the nil field for a nil pointer, else `Uint(key, *val)`. -/
def Uintp (key : GoString) (val : Ptr GoUint) : Except RuntimePanic zap.Field :=
  if val.isNil then
    pure (nilField key)
  else do
    let v ← val.deref
    pure (Uint key v)

/-- `Uint32(key, val)` forwards to `zap.Uint32`. -/
def Uint32 (key : GoString) (val : GoUint) : zap.Field := zap.Field.Uint32 key val

/-- `Uint32p(key, val)`: the nil field for a nil pointer, else `Uint32(key, *val)`. -/
def Uint32p (key : GoString) (val : Ptr GoUint) : Except RuntimePanic zap.Field :=
  if val.isNil then
    pure (nilField key)
  else do
    let v ← val.deref
    pure (Uint32 key v)

/-- `Uint16(key, val)` forwards to `zap.Uint16`. -/
def Uint16 (key : GoString) (val : GoUint) : zap.Field := zap.Field.Uint16 key val

/-- `Uint16p(key, val)`: the nil field for a nil pointer, else `Uint16(key, *val)`. -/
def Uint16p (key : GoString) (val : Ptr GoUint) : Except RuntimePanic zap.Field :=
  if val.isNil then
    pure (nilField key)
  else do
    let v ← val.deref
    pure (Uint16 key v)

/-- `Uint8(key, val)` forwards to `zap.Uint8`. -/
def Uint8 (key : GoString) (val : GoUint) : zap.Field := zap.Field.Uint8 key val

/-- `Uint8p(key, val)`: the nil field for a nil pointer, else `Uint8(key, *val)`. -/
def Uint8p (key : GoString) (val : Ptr GoUint) : Except RuntimePanic zap.Field :=
  if val.isNil then
    pure (nilField key)
  else do
    let v ← val.deref
    pure (Uint8 key v)

/-- `Uintptr(key, val)` forwards to `zap.Uintptr`. -/
def Uintptr (key : GoString) (val : GoUint) : zap.Field := zap.Field.Uintptr key val

/-- `Uintptrp(key, val)`: the nil field for a nil pointer, else `Uintptr(key, *val)`. -/
def Uintptrp (key : GoString) (val : Ptr GoUint) : Except RuntimePanic zap.Field :=
  if val.isNil then
    pure (nilField key)
  else do
    let v ← val.deref
    pure (Uintptr key v)

/-- `Duration(key, val)` forwards to `zap.Duration`. -/
def Duration (key : GoString) (val : GoDuration) : zap.Field := zap.Field.Duration key val

/-- `Durationp(key, val)`: the nil field for a nil pointer, else `Duration(key, *val)`. -/
def Durationp (key : GoString) (val : Ptr GoDuration) : Except RuntimePanic zap.Field :=
  if val.isNil then
    pure (nilField key)
  else do
    let v ← val.deref
    pure (Duration key v)

end field

/-! ## Go's `time` package: locations, times and `Format` -/

namespace time

/-- A `time.Location`, as far as `Time.abs` consults it: the offset (seconds east of UTC)
in effect before the first transition, and the transitions in increasing order of their
Unix second, each with the offset that starts to apply. -/
structure Location where
  name : String
  firstOffset : Int
  tx : List (Int × Int)
  deriving DecidableEq, Repr

/-- `Location.lookup(sec)`: the offset in effect at Unix second `sec`, that of the last
transition at or before `sec`. -/
def Location.lookup (l : Location) (sec : Int) : Int :=
  l.tx.foldl (fun off tr => if tr.1 ≤ sec then tr.2 else off) l.firstOffset

/-- The location `time.UTC`. -/
def UTC : Location := { name := "UTC", firstOffset := 0, tx := [] }

/-- `time.FixedZone(name, offset)`. -/
def FixedZone (name : String) (offset : Int) : Location :=
  { name := name, firstOffset := offset, tx := [] }

/-- A `time.Time`: the instant as seconds since the Unix epoch (`unixSec()`) and
nanoseconds within the second (`nsec()`), and the location it is presented in. -/
structure Time where
  sec : Int
  nsec : Nat
  loc : Location
  deriving DecidableEq, Repr

/-- The invariants of the representation: `nsec` is in `[0, 999999999]`, the Unix second
is an `int64`, and the zone offset in effect is an `int32`. -/
def Time.wellFormed (t : Time) : Prop :=
  t.nsec < 1000000000 ∧ -(2 ^ 63) ≤ t.sec ∧ t.sec < 2 ^ 63 ∧
    -(2 ^ 31) ≤ t.loc.lookup t.sec ∧ t.loc.lookup t.sec < 2 ^ 31

instance (t : Time) : Decidable t.wellFormed := by
  unfold Time.wellFormed
  exact inferInstance

/-- `t.Before(u) || t.Equal(u)` on the instants: `t` is not later than `u`. -/
def Time.notAfter (t u : Time) : Prop :=
  t.sec < u.sec ∨ (t.sec = u.sec ∧ t.nsec ≤ u.nsec)

instance (t u : Time) : Decidable (t.notAfter u) := by
  unfold Time.notAfter
  exact inferInstance

/-- `u.Sub(t)` in nanoseconds, on the instants. -/
def Time.nanosUntil (t u : Time) : Int :=
  (u.sec - t.sec) * 1000000000 + ((u.nsec : Int) - (t.nsec : Int))

/-- The constant `secondsPerDay`. -/
def secondsPerDay : Nat := 86400

/-- The constant `daysPer400Years`. -/
def daysPer400Years : Nat := 365 * 400 + 97

/-- The constant `daysPer100Years`. -/
def daysPer100Years : Nat := 365 * 100 + 24

/-- The constant `daysPer4Years`. -/
def daysPer4Years : Nat := 365 * 4 + 1

/-- The constant `absoluteZeroYear`. -/
def absoluteZeroYear : Int := -292277022399

/-- The constant `unixToInternal + internalToAbsolute`: the absolute second of the Unix
epoch. -/
def unixToAbsolute : Int := 9223372028715321600

/-- `t.abs()`: the seconds since the absolute zero year in the location of `t`, as a
`uint64`. -/
def Time.abs (t : Time) : Nat :=
  ((t.sec + t.loc.lookup t.sec + unixToAbsolute) % (2 ^ 64 : Int)).toNat

/-- `isLeap(year)`. -/
def isLeap (year : Int) : Bool :=
  year % 4 == 0 && (year % 100 != 0 || year % 400 == 0)

/-- The table `daysBefore`: `daysBefore[m]` counts the days in a non-leap year before
month `m + 1`. -/
def daysBefore : List Nat :=
  [0, 31, 31 + 28, 31 + 28 + 31, 31 + 28 + 31 + 30, 31 + 28 + 31 + 30 + 31,
   31 + 28 + 31 + 30 + 31 + 30, 31 + 28 + 31 + 30 + 31 + 30 + 31,
   31 + 28 + 31 + 30 + 31 + 30 + 31 + 31, 31 + 28 + 31 + 30 + 31 + 30 + 31 + 31 + 30,
   31 + 28 + 31 + 30 + 31 + 30 + 31 + 31 + 30 + 31,
   31 + 28 + 31 + 30 + 31 + 30 + 31 + 31 + 30 + 31 + 30,
   31 + 28 + 31 + 30 + 31 + 30 + 31 + 31 + 30 + 31 + 30 + 31]

/-- The year and the day within the year of `absDate(abs, false)`: the 400-, 100-, 4- and
1-year cycles are cut off in turn. -/
def absYearDay (abs : Nat) : Int × Nat :=
  let d := abs / secondsPerDay
  let n := d / daysPer400Years
  let y := 400 * n
  let d := d - daysPer400Years * n
  let n := d / daysPer100Years
  let n := n - n / 4
  let y := y + 100 * n
  let d := d - daysPer100Years * n
  let n := d / daysPer4Years
  let y := y + 4 * n
  let d := d - daysPer4Years * n
  let n := d / 365
  let n := n - n / 4
  let y := y + n
  let d := d - 365 * n
  ((y : Int) + absoluteZeroYear, d)

/-- The second half of `absDate(abs, true)`: month (January is 1) and day of the month
from the leap flag of the year and the day within the year. -/
def absMonthDay (leap : Bool) (yday : Nat) : Nat × Nat :=
  if leap && yday == 31 + 29 - 1 then
    (2, 29)
  else
    let day := if leap && yday > 31 + 29 - 1 then yday - 1 else yday
    let month := day / 31
    let endDay := daysBefore.getD (month + 1) 0
    if day ≥ endDay then
      (month + 1 + 1, day - endDay + 1)
    else
      (month + 1, day - daysBefore.getD month 0 + 1)

/-- `absDate(abs, true)`: year, month and day of the month. -/
def absDate (abs : Nat) : Int × Nat × Nat :=
  let year := (absYearDay abs).1
  let yday := (absYearDay abs).2
  (year, absMonthDay (isLeap year) yday)

/-- `absClock(abs)`: hour, minute and second within the day. -/
def absClock (abs : Nat) : Nat × Nat × Nat :=
  let sec := abs % secondsPerDay
  let hour := sec / 3600
  let sec := sec - hour * 3600
  let min := sec / 60
  let sec := sec - min * 60
  (hour, min, sec)

/-- `t.Year()`. -/
def Time.Year (t : Time) : Int := (absDate t.abs).1

/-- `t.Month()`. -/
def Time.Month (t : Time) : Nat := (absDate t.abs).2.1

/-- `t.Day()`. -/
def Time.Day (t : Time) : Nat := (absDate t.abs).2.2

/-- `t.Hour()`. -/
def Time.Hour (t : Time) : Nat := (absClock t.abs).1

/-- `t.Minute()`. -/
def Time.Minute (t : Time) : Nat := (absClock t.abs).2.1

/-- `t.Second()`. -/
def Time.Second (t : Time) : Nat := (absClock t.abs).2.2

/-- `t.Nanosecond()`. -/
def Time.Nanosecond (t : Time) : Nat := t.nsec

/-- The byte `'0' + d`. -/
def digitChar (d : Nat) : Char := Char.ofNat (48 + d)

/-- The digit loop of `appendInt`: the decimal digits of `u`, most significant first, in
front of `acc`; `fuel` is the room left in the 20-byte buffer. -/
def appendIntLoop : Nat → Nat → List Char → List Char
  | 0, _, acc => acc
  | fuel + 1, u, acc =>
    if u ≥ 10 then
      let q := u / 10
      appendIntLoop fuel q (digitChar (u - q * 10) :: acc)
    else
      digitChar u :: acc

/-- `appendInt(b, x, width)`: a minus sign for a negative `x`, then zeros up to `width`,
then the decimal digits of the magnitude. -/
def appendInt (b : List Char) (x : Int) (width : Nat) : List Char :=
  let b := if x < 0 then b ++ ['-'] else b
  let digits := appendIntLoop 20 x.natAbs []
  b ++ List.replicate (width - digits.length) '0' ++ digits

/-- The digit loop of `formatNano`: `count` decimal digits of `u`, least significant
taken first, most significant first in the result. -/
def formatNanoLoop : Nat → Nat → List Char → List Char
  | 0, _, acc => acc
  | count + 1, u, acc => formatNanoLoop count (u / 10) (digitChar (u % 10) :: acc)

/-- `formatNano(b, nanosec, n, trim)` for `trim = false`: a point and the first `n` of the
nine digits of the nanoseconds. -/
def formatNano (b : List Char) (nanosec : Nat) (n : Nat) : List Char :=
  let buf := formatNanoLoop 9 nanosec []
  let n := if n > 9 then 9 else n
  b ++ ['.'] ++ buf.take n

/-- The layout chunks of `nextStdChunk` that carry a number: the codes of the reference
time `01/02 03:04:05PM '06 -0700` written with digits, and the fractional seconds
`.000`. -/
inductive Std
  | stdZeroMonth
  | stdNumMonth
  | stdZeroDay
  | stdDay
  | stdHour
  | stdHour12
  | stdZeroHour12
  | stdYear
  | stdZeroMinute
  | stdMinute
  | stdZeroSecond
  | stdSecond
  | stdLongYear
  | stdFracSecond0 (digits : Nat)
  deriving DecidableEq, Repr

/-- The number of leading characters of `l` equal to `c`. -/
def countLeading (c : Char) : List Char → Nat
  | [] => 0
  | x :: xs => if x = c then countLeading c xs + 1 else 0

/-- Whether the list starts with a decimal digit (`isDigit(layout, j)`). -/
def startsWithDigit : List Char → Bool
  | [] => false
  | c :: _ => decide ('0' ≤ c ∧ c ≤ '9')

/-- `nextStdChunk(layout)`: the literal text before the first chunk, the chunk, and the
text after it; `none` for the chunk when the layout holds no further chunk. The scan
recognises the numeric chunks of `Std`; the layouts of this package contain none of the
lead characters of the other chunks (month and day names, `_`, AM/PM, zones). -/
def nextStdChunk : List Char → List Char × Option Std × List Char
  | [] => ([], none, [])
  | c :: rest =>
    let found : Option (Std × List Char) :=
      match c, rest with
      | '0', '1' :: r => some (Std.stdZeroMonth, r)
      | '0', '2' :: r => some (Std.stdZeroDay, r)
      | '0', '3' :: r => some (Std.stdZeroHour12, r)
      | '0', '4' :: r => some (Std.stdZeroMinute, r)
      | '0', '5' :: r => some (Std.stdZeroSecond, r)
      | '0', '6' :: r => some (Std.stdYear, r)
      | '1', '5' :: r => some (Std.stdHour, r)
      | '1', r => some (Std.stdNumMonth, r)
      | '2', '0' :: '0' :: '6' :: r => some (Std.stdLongYear, r)
      | '2', r => some (Std.stdDay, r)
      | '3', r => some (Std.stdHour12, r)
      | '4', r => some (Std.stdMinute, r)
      | '5', r => some (Std.stdSecond, r)
      | '.', '0' :: r =>
        let k := countLeading '0' r + 1
        if startsWithDigit (r.drop (k - 1)) then none
        else some (Std.stdFracSecond0 k, r.drop (k - 1))
      | _, _ => none
    match found with
    | some (std, suffix) => ([], some std, suffix)
    | none =>
      let next := nextStdChunk rest
      (c :: next.1, next.2.1, next.2.2)

/-- The `switch std & stdMask` of `Time.AppendFormat`: the text of one chunk appended
to `b`. -/
def appendStd (t : Time) (b : List Char) : Std → List Char
  | .stdLongYear => appendInt b t.Year 4
  | .stdYear => appendInt b ((t.Year.natAbs % 100 : Nat) : Int) 2
  | .stdZeroMonth => appendInt b t.Month 2
  | .stdNumMonth => appendInt b t.Month 0
  | .stdZeroDay => appendInt b t.Day 2
  | .stdDay => appendInt b t.Day 0
  | .stdHour => appendInt b t.Hour 2
  | .stdHour12 => appendInt b (if t.Hour % 12 = 0 then 12 else t.Hour % 12 : Nat) 0
  | .stdZeroHour12 => appendInt b (if t.Hour % 12 = 0 then 12 else t.Hour % 12 : Nat) 2
  | .stdZeroMinute => appendInt b t.Minute 2
  | .stdMinute => appendInt b t.Minute 0
  | .stdZeroSecond => appendInt b t.Second 2
  | .stdSecond => appendInt b t.Second 0
  | .stdFracSecond0 digits => formatNano b t.Nanosecond digits

/-- The loop of `Time.AppendFormat`: literal text is copied, each chunk is replaced by the
component of `t` it names. `fuel` bounds the number of chunks. -/
def appendFormatLoop (t : Time) : Nat → List Char → List Char → List Char
  | 0, b, _ => b
  | fuel + 1, b, layout =>
    if layout.isEmpty then b
    else
      let chunk := nextStdChunk layout
      let b := b ++ chunk.1
      match chunk.2.1 with
      | none => b
      | some std => appendFormatLoop t fuel (appendStd t b std) chunk.2.2

/-- `t.Format(layout)`. -/
def Time.Format (t : Time) (layout : String) : String :=
  String.mk (appendFormatLoop t (layout.length + 1) [] layout.data)

/-- A location with one change of offset: four hours west of UTC until Unix second
1636264800 (2021-11-07 06:00:00 UTC), five hours west from then on, as in New York when
daylight saving time ended in 2021. -/
def sampleLocation : Location :=
  { name := "America/New_York", firstOffset := -14400, tx := [(1636264800, -18000)] }

/-- The instant 2021-11-07 05:30:00 UTC in the sample location (01:30 local, before the
change of offset). -/
def sampleBeforeChange : Time := { sec := 1636263000, nsec := 0, loc := sampleLocation }

/-- The instant 2021-11-07 06:10:00 UTC in the sample location (01:10 local, after the
change of offset). -/
def sampleAfterChange : Time := { sec := 1636265400, nsec := 0, loc := sampleLocation }

/-- The instant 2023-11-14 22:13:20.123456789 UTC. -/
def sampleTime : Time := { sec := 1700000000, nsec := 123456789, loc := UTC }

/-- The instant 2023-11-14 22:13:20.124999999 UTC. -/
def sampleTimeLater : Time := { sec := 1700000000, nsec := 124999999, loc := UTC }

/-- The days of the proleptic Gregorian calendar before the year with index `y`, years
counted from the absolute zero year (index 0, a year after a multiple of 400). -/
def daysBeforeYear (y : Nat) : Nat := 365 * y + y / 4 - y / 100 + y / 400

/-- One when the year with index `y` is a leap year, zero otherwise. -/
def leapDay (y : Nat) : Nat :=
  if (y + 1) % 4 = 0 ∧ ((y + 1) % 100 ≠ 0 ∨ (y + 1) % 400 = 0) then 1 else 0

/-- The sort key of a month and day of the month. -/
def monthDayKey (md : Nat × Nat) : Nat := 32 * md.1 + md.2

/-- The decimal numeral of `n` in exactly `width` digits, zero-padded (the digits of
`n mod 10 ^ width`). -/
def fixedWidth : Nat → Nat → List Char
  | 0, _ => []
  | width + 1, n => fixedWidth width (n / 10) ++ [digitChar (n % 10)]

/-- The characters `[YYYY-MM-DDTHH:MM:SS.mmm]` for given components, each in fixed
width. -/
def stampChars (year month day hour minute second millis : Nat) : List Char :=
  '[' :: (fixedWidth 4 year ++ '-' :: (fixedWidth 2 month ++ '-' :: (fixedWidth 2 day ++
    'T' :: (fixedWidth 2 hour ++ ':' :: (fixedWidth 2 minute ++ ':' :: (fixedWidth 2 second ++
    '.' :: (fixedWidth 3 millis ++ [']'])))))))

/-- The text `[YYYY-MM-DDTHH:MM:SS.mmm]` for the components of `t` in its own location:
each component in fixed width, `mmm` the whole milliseconds of the second. -/
def timestampText (t : Time) : String :=
  String.mk (['['] ++ fixedWidth 4 t.Year.toNat ++ ['-'] ++ fixedWidth 2 t.Month ++ ['-'] ++
    fixedWidth 2 t.Day ++ ['T'] ++ fixedWidth 2 t.Hour ++ [':'] ++ fixedWidth 2 t.Minute ++
    [':'] ++ fixedWidth 2 t.Second ++ ['.'] ++ fixedWidth 3 (t.Nanosecond / 1000000) ++ [']'])

end time

/-! ## Go errors and call outcomes -/

/-- A Go `error` value: `none` is the nil error, `some msg` an error with that message. -/
abbrev GoError := Option String

/-- The interface value that holds a Go `error`. -/
def GoError.toValue : GoError → GoValue
  | none => GoValue.nil
  | some msg => GoValue.err msg

/-- How a Go call ends: it returns a value, it panics with a value, or the process exits. -/
inductive Outcome (α : Type)
  | ret (a : α)
  | panic (v : GoValue)
  | exit (code : Nat)
  deriving DecidableEq, Repr

/-- The panic value of a nil-pointer dereference raised by the Go runtime. -/
def nilDereference : GoValue :=
  GoValue.err "runtime error: invalid memory address or nil pointer dereference"

/-! ## encoder/terminal_check_windows.go -/

namespace encoder

/-- A Windows `syscall.Handle`, by its numeric value. -/
abbrev Handle := Nat

/-- An `io.Writer` by its dynamic type: an `*os.File` (with the handle its `Fd()` reports)
or a writer of any other type. -/
inductive Writer
  | osFile (fd : Handle)
  | other (id : Nat)
  deriving DecidableEq, Repr

/-- The answers of the operating system to the two console calls of this file:
`syscall.GetConsoleMode` (the mode, or an error) and
`sequences.EnableVirtualTerminalProcessing` (the error it returns, nil on success). -/
structure Syscalls where
  GetConsoleMode : Handle → Except String Nat
  EnableVirtualTerminalProcessing : Handle → Bool → GoError

/-- `initTerminal(w)`: enables virtual-terminal processing on an `*os.File`, and is a
no-op returning nil for any other writer. -/
def initTerminal (sys : Syscalls) (w : Writer) : GoError :=
  match w with
  | .osFile fd => sys.EnableVirtualTerminalProcessing fd true
  | _ => none

/-- `CheckIfTerminal(w)` of `terminal_check_windows.go`. -/
def CheckIfTerminal (sys : Syscalls) (w : Writer) : Bool :=
  let ret : Bool :=
    match w with
    | .osFile fd =>
      match sys.GetConsoleMode fd with
      | .ok _ => true
      | .error _ => false
    | _ => false
  if ret then
    let err := initTerminal sys w
    err == none
  else
    ret

end encoder

/-! ## logsentry and sentry-go: configuration -/

namespace logsentry

/-- `logsentry.Configuration` as filled in by `getSentryCore`. -/
structure Configuration where
  Level : zapcore.Level
  Tags : List (String × String)
  FlushTimeout : GoDuration
  deriving DecidableEq, Repr

end logsentry

namespace sentry

/-- `sentry.ClientOptions`, by its DSN. -/
structure ClientOptions where
  Dsn : String
  deriving DecidableEq, Repr

/-- What the tracker side answers while `InitSentry` runs: the error of `sentry.Init`
and the error of building the tracker core (nil on success). -/
structure Answers where
  initError : GoError
  coreError : GoError
  deriving DecidableEq, Repr

end sentry

/-! ## zapcore: encoder configuration, entries, cores -/

namespace zapcore

/-- The time encoders an `EncoderConfig` of this package can hold: zap's production
default, or the closure installed by `getConsoleCore`. -/
inductive TimeEncoder
  | EpochTimeEncoder
  | consoleTimeEncoder
  deriving DecidableEq, Repr

/-- The level encoders an `EncoderConfig` of this package can hold. -/
inductive LevelEncoder
  | LowercaseLevelEncoder
  | MyLevelEncoder
  | MyColorLevelEncoder
  deriving DecidableEq, Repr

/-- The caller encoders an `EncoderConfig` of this package can hold. -/
inductive CallerEncoder
  | ShortCallerEncoder
  | MyCallerEncode
  deriving DecidableEq, Repr

/-- The formatting choices of `zapcore.EncoderConfig` that `getConsoleCore` sets. -/
structure EncoderConfig where
  EncodeTime : TimeEncoder
  EncodeLevel : LevelEncoder
  EncodeCaller : CallerEncoder
  deriving DecidableEq, Repr

/-- A log record: `zapcore.Entry` together with the fields of the call. -/
structure Entry where
  Level : Level
  Message : String
  Fields : List zap.Field
  deriving DecidableEq, Repr

/-- An event submitted to the remote tracker: built by the tracker core from a log
record, or captured directly from a recovered panic value. -/
inductive TrackerEvent
  | ofEntry (ent : Entry)
  | ofRecovered (v : GoValue)
  deriving DecidableEq, Repr

/-- What the sinks have received so far: the records written to the console stream and the
events submitted to the remote tracker. -/
structure Sinks where
  console : List Entry
  tracker : List TrackerEvent
  deriving DecidableEq, Repr

/-- A `zapcore.Core`: the console core of `zapcore.NewCore` (encoder configuration and
level enabler; the stream is always the locked stdout), the remote-tracker core, the
no-op core, or the `multiCore` of `zapcore.NewTee`. -/
inductive Core
  | ioCore (enc : EncoderConfig) (enab : Level)
  | sentryCore (cfg : logsentry.Configuration)
  | nopCore
  | multiCore (cores : List Core)
  deriving Repr

/-- `zapcore.NewTee(cores...)`: the no-op core for no cores, the core itself for one, a
`multiCore` otherwise. -/
def NewTee (cores : List Core) : Core :=
  match cores with
  | [] => Core.nopCore
  | [c] => c
  | _ => Core.multiCore cores

mutual
/-- `Core.Enabled(lvl)`; a `multiCore` is enabled when any constituent is. -/
def Core.Enabled : Core → Level → Bool
  | .ioCore _ enab, lvl => enab.Enabled lvl
  | .sentryCore cfg, lvl => cfg.Level.Enabled lvl
  | .nopCore, _ => false
  | .multiCore cs, lvl => enabledAny cs lvl
/-- The loop of `multiCore.Enabled`. -/
def enabledAny : List Core → Level → Bool
  | [], _ => false
  | c :: cs, lvl => c.Enabled lvl || enabledAny cs lvl
end

mutual
/-- `Core.Check(ent, ce)`: the leaf cores added to the checked entry, in order; each
leaf adds itself when it is enabled for the level of the entry. -/
def Core.Check : Core → Entry → List Core
  | .ioCore enc enab, ent => if enab.Enabled ent.Level then [Core.ioCore enc enab] else []
  | .sentryCore cfg, ent => if cfg.Level.Enabled ent.Level then [Core.sentryCore cfg] else []
  | .nopCore, _ => []
  | .multiCore cs, ent => checkAll cs ent
/-- The loop of `multiCore.Check`. -/
def checkAll : List Core → Entry → List Core
  | [], _ => []
  | c :: cs, ent => c.Check ent ++ checkAll cs ent
end

mutual
/-- `Core.Write(ent, fields)`: the console core appends the record to the console stream,
the remote-tracker core submits one event built from the record, a `multiCore` writes to
every constituent in order. -/
def Core.Write : Core → Entry → Sinks → Sinks
  | .ioCore _ _, ent, s => { s with console := s.console ++ [ent] }
  | .sentryCore _, ent, s => { s with tracker := s.tracker ++ [TrackerEvent.ofEntry ent] }
  | .nopCore, _, s => s
  | .multiCore cs, ent, s => writeAll cs ent s
/-- The loop of `multiCore.Write`. -/
def writeAll : List Core → Entry → Sinks → Sinks
  | [], _, s => s
  | c :: cs, ent, s => writeAll cs ent (c.Write ent s)
end

mutual
/-- Whether a core includes a remote-tracker sink. -/
def Core.includesRemote : Core → Bool
  | .ioCore _ _ => false
  | .sentryCore _ => true
  | .nopCore => false
  | .multiCore cs => includesRemoteAny cs
/-- Whether some core of the list includes a remote-tracker sink. -/
def includesRemoteAny : List Core → Bool
  | [] => false
  | c :: cs => c.includesRemote || includesRemoteAny cs
end

mutual
/-- The encoder configurations of the console cores inside a core, in order. -/
def Core.consoleEncoders : Core → List EncoderConfig
  | .ioCore enc _ => [enc]
  | .sentryCore _ => []
  | .nopCore => []
  | .multiCore cs => consoleEncodersAll cs
/-- The encoder configurations of the console cores inside a list of cores. -/
def consoleEncodersAll : List Core → List EncoderConfig
  | [] => []
  | c :: cs => c.consoleEncoders ++ consoleEncodersAll cs
end

end zapcore

/-! ## zap: loggers -/

namespace zap

open zapcore

/-- A `zap.Logger`: its core and the options this package sets. -/
structure Logger where
  core : Core
  context : List Field
  development : Bool
  addCaller : Bool
  callerSkip : Int
  deriving Repr

/-- `Logger.With(fields...)`: a child logger carrying the added fields. -/
def Logger.With (l : Logger) (fields : List Field) : Logger :=
  if fields.isEmpty then l else { l with context := l.context ++ fields }

/-- The `zap.Option`s this package passes to `zap.New`. -/
inductive LoggerOption
  | AddCaller
  | AddCallerSkip (skip : Int)
  deriving DecidableEq, Repr

/-- Applying one option to a logger. -/
def LoggerOption.apply : LoggerOption → Logger → Logger
  | .AddCaller, l => { l with addCaller := true }
  | .AddCallerSkip skip, l => { l with callerSkip := l.callerSkip + skip }

/-- `zap.New(core, options...)`. -/
def New (core : Core) (options : List LoggerOption) : Logger :=
  options.foldl (fun l o => o.apply l)
    { core := core, context := [], development := false, addCaller := false, callerSkip := 0 }

/-- One leveled call on a logger (`Logger.Debug` ... `Logger.Fatal`): `check` followed by
`CheckedEntry.Write`. The record is written to the cores that accept its level, after
which a panic-level call panics with the message, a fatal-level call exits with status 1,
and a dpanic-level call panics in development mode; these happen even when no core
accepted the record. -/
def Logger.log (l : Logger) (lvl : Level) (msg : String) (fields : List Field)
    (s : Sinks) : Outcome Unit × Sinks :=
  let ent : Entry := { Level := lvl, Message := msg, Fields := l.context ++ fields }
  let s1 := (l.core.Check ent).foldl (fun acc c => c.Write ent acc) s
  match lvl with
  | .PanicLevel => (Outcome.panic (GoValue.str msg), s1)
  | .FatalLevel => (Outcome.exit 1, s1)
  | .DPanicLevel =>
    if l.development then (Outcome.panic (GoValue.str msg), s1) else (Outcome.ret (), s1)
  | _ => (Outcome.ret (), s1)

end zap

namespace logsentry

/-- Modelled from the spec: `logsentry.NewCore` (file `sentry/core.go`, not among the
source files) builds the remote-tracker sink, which accepts records at the configured
level and above; when it fails it returns the error with a no-op core, as the comment in
`getSentryCore` says. Whether it fails is decided by the tracker side (`failure`). -/
def NewCore (failure : GoError) (cfg : Configuration) : zapcore.Core × GoError :=
  match failure with
  | some msg => (zapcore.Core.nopCore, some msg)
  | none => (zapcore.Core.sentryCore cfg, none)

/-- Modelled from the spec: `logsentry.AttachCoreToLogger` (file `sentry/core.go`, not
among the source files) returns the logger with its existing core wrapped in a new Tee
that includes the remote-tracker sink. -/
def AttachCoreToLogger (sentryCore : zapcore.Core) (l : zap.Logger) : zap.Logger :=
  { l with core := zapcore.NewTee [l.core, sentryCore] }

end logsentry

namespace log

open zapcore

/-- `getZapLevelEnablerFunc` of `logger.go`: the `switch` on the level name, cases in
source order. -/
def getZapLevelEnablerFunc (level : String) : Level :=
  if level = "debug" then Level.DebugLevel
  else if level = "warn" then Level.WarnLevel
  else if level = "error" then Level.ErrorLevel
  else if level = "fatal" then Level.FatalLevel
  else if level = "panic" then Level.PanicLevel
  else if level = "info" then Level.InfoLevel
  else Level.DebugLevel

/-! ### logger.go: the global logger -/

/-- The process state the facade reads and writes: the package variable `_globalL`
(`none` is the nil logger), the records handed to the global logger so far, what the sinks
have received, and whether the current sentry hub has a client bound. -/
structure World where
  globalL : Option zap.Logger
  logged : List Entry
  sinks : Sinks
  hubClient : Bool
  deriving Repr

/-- A leveled call `_globalL.X(msg, fields...)` on the package variable: a nil logger
panics on the dereference of its core; otherwise the record is handed to the logger. -/
def callGlobal (lvl : Level) (msg : String) (fields : List zap.Field) (w : World) :
    Outcome Unit × World :=
  match w.globalL with
  | none => (Outcome.panic nilDereference, w)
  | some l =>
    let r := l.log lvl msg fields w.sinks
    (r.1, { w with
      logged := w.logged ++ [{ Level := lvl, Message := msg, Fields := fields }],
      sinks := r.2 })

/-- `Debug(msg, fields...)`. -/
def Debug (msg : String) (fields : List zap.Field) (w : World) : Outcome Unit × World :=
  callGlobal Level.DebugLevel msg fields w

/-- `Info(msg, fields...)`. -/
def Info (msg : String) (fields : List zap.Field) (w : World) : Outcome Unit × World :=
  callGlobal Level.InfoLevel msg fields w

/-- `Warn(msg, fields...)`. -/
def Warn (msg : String) (fields : List zap.Field) (w : World) : Outcome Unit × World :=
  callGlobal Level.WarnLevel msg fields w

/-- `Error(msg, fields...)`. -/
def Error (msg : String) (fields : List zap.Field) (w : World) : Outcome Unit × World :=
  callGlobal Level.ErrorLevel msg fields w

/-- `DPanic(msg, fields...)`. -/
def DPanic (msg : String) (fields : List zap.Field) (w : World) : Outcome Unit × World :=
  callGlobal Level.DPanicLevel msg fields w

/-- `Panic(msg, fields...)`. -/
def Panic (msg : String) (fields : List zap.Field) (w : World) : Outcome Unit × World :=
  callGlobal Level.PanicLevel msg fields w

/-- `Fatal(msg, fields...)`. -/
def Fatal (msg : String) (fields : List zap.Field) (w : World) : Outcome Unit × World :=
  callGlobal Level.FatalLevel msg fields w

/-- `With(fields...)`: `_globalL.With(fields...)`. `Logger.With` returns its receiver for
an empty field list and clones it (dereferencing it) otherwise; the package variable is
not assigned. -/
def With (fields : List zap.Field) (w : World) : Outcome (Option zap.Logger) × World :=
  match w.globalL with
  | none => if fields.isEmpty then (Outcome.ret none, w) else (Outcome.panic nilDereference, w)
  | some l => (Outcome.ret (some (l.With fields)), w)

/-- The `context.Context` argument of `L`, as far as `L` inspects it: nil, carrying an
APM span, carrying an APM transaction (and no span), or carrying neither. -/
inductive Context
  | nil
  | span (traceID spanID : String)
  | transaction (traceID spanID : String)
  | plain
  deriving DecidableEq, Repr

/-- The key `_traceIDKey`. -/
def _traceIDKey : String := "trace.traceid"

/-- The key `_spanIDKey`. -/
def _spanIDKey : String := "trace.spanid"

/-- `withTraceContext(tc)`. -/
def withTraceContext (traceID spanID : String) (w : World) :
    Outcome (Option zap.Logger) × World :=
  With [zap.Field.String _traceIDKey traceID, zap.Field.String _spanIDKey spanID] w

/-- `L(ctx)`. -/
def L (ctx : Context) (w : World) : Outcome (Option zap.Logger) × World :=
  match ctx with
  | .nil => (Outcome.ret w.globalL, w)
  | .span traceID spanID => withTraceContext traceID spanID w
  | .transaction traceID spanID => withTraceContext traceID spanID w
  | .plain => (Outcome.ret w.globalL, w)

/-- `Sync()`: `_globalL.Core().Sync()`; a nil logger panics on the dereference. Otherwise
the sinks are flushed, which leaves what they have received unchanged, and the error they
report (`syncError`, nil when the flush succeeds) is returned. -/
def Sync (syncError : GoError) (w : World) : Outcome GoError × World :=
  match w.globalL with
  | none => (Outcome.panic nilDereference, w)
  | some _ => (Outcome.ret syncError, w)

/-- `getConsoleCore(colorLevel, level)`: the production encoder configuration with the
console time, level and caller encoders installed, the level encoder replaced by the color
one when `colorLevel` is set; the returned error is always nil. -/
def getConsoleCore (colorLevel : Bool) (level : String) : Core × GoError :=
  let consoleEncoder : EncoderConfig :=
    { EncodeTime := TimeEncoder.EpochTimeEncoder,
      EncodeLevel := LevelEncoder.LowercaseLevelEncoder,
      EncodeCaller := CallerEncoder.ShortCallerEncoder }
  let consoleEncoder := { consoleEncoder with EncodeTime := TimeEncoder.consoleTimeEncoder }
  let consoleEncoder := { consoleEncoder with EncodeLevel := LevelEncoder.MyLevelEncoder }
  let consoleEncoder := { consoleEncoder with EncodeCaller := CallerEncoder.MyCallerEncode }
  let consoleEncoder :=
    if colorLevel then
      { consoleEncoder with EncodeLevel := LevelEncoder.MyColorLevelEncoder }
    else consoleEncoder
  (Core.ioCore consoleEncoder (getZapLevelEnablerFunc level), none)

/-- The layout the console time encoder formats with. -/
def consoleTimeLayout : String := "2006-01-02T15:04:05.000"

/-- The `EncodeTime` closure installed by `getConsoleCore`: three `AppendString` calls on
the array encoder, whose appended strings are kept in order. -/
def consoleEncodeTime (t : time.Time) (enc : List String) : List String :=
  let enc := enc ++ ["["]
  let enc := enc ++ [t.Format consoleTimeLayout]
  enc ++ ["]"]

/-- The text the console time encoder renders for `t`: the concatenation of the strings
it appends. -/
def renderTime (t : time.Time) : String :=
  String.join (consoleEncodeTime t [])

/-- `NewSentryClientFromOptions(options)` of `sentry/factory.go`: `sentry.Init` binds a
client to the current hub unless it fails (the failure is only printed); the returned
factory never fails. -/
def NewSentryClientFromOptions (answers : sentry.Answers) (_options : sentry.ClientOptions)
    (w : World) : World :=
  match answers.initError with
  | none => { w with hubClient := true }
  | some _ => w

/-- `getSentryCore(options)`: the tracker core for error level and above, tagged
`component=system`, flush timeout five seconds; the error of `NewCore` is returned with
the core. -/
def getSentryCore (answers : sentry.Answers) (options : sentry.ClientOptions) (w : World) :
    (Core × GoError) × World :=
  let cfg : logsentry.Configuration :=
    { Level := Level.ErrorLevel,
      Tags := [("component", "system")],
      FlushTimeout := 5 * 1000000000 }
  let w1 := NewSentryClientFromOptions answers options w
  (logsentry.NewCore answers.coreError cfg, w1)

/-- `initZapLogger(level)`. -/
def initZapLogger (level : String) (w : World) : GoError × World :=
  let r := getConsoleCore true level
  match r.2 with
  | some e => (some e, w)
  | none =>
    (none, { w with globalL := some (zap.New (NewTee [r.1])
      [zap.LoggerOption.AddCaller, zap.LoggerOption.AddCallerSkip 1]) })

/-- The standard output stream `os.Stdout`: an `*os.File` on the process's stdout handle. -/
def Stdout (stdoutHandle : encoder.Handle) : encoder.Writer :=
  encoder.Writer.osFile stdoutHandle

/-- The package `init()` of `logger.go`. -/
def init (sys : encoder.Syscalls) (stdoutHandle : encoder.Handle) (w : World) :
    Outcome Unit × World :=
  let r := getConsoleCore true "debug"
  let _ := encoder.CheckIfTerminal sys (Stdout stdoutHandle)
  match r.2 with
  | none =>
    (Outcome.ret (), { w with globalL := some (zap.New (NewTee [r.1])
      [zap.LoggerOption.AddCaller, zap.LoggerOption.AddCallerSkip 1]) })
  | some e => (Outcome.panic (GoValue.err e), w)

/-- The process state before any package initialiser has run. -/
def World.start : World :=
  { globalL := none, logged := [], sinks := { console := [], tracker := [] },
    hubClient := false }

/-! ### log.go -/

/-- `InitLog(fileName, cfg)`: `initZapLogger(cfg.GetString("logging.level"))`; `level` is
the string the configuration holds under `logging.level`. -/
def InitLog (_fileName : String) (level : String) (w : World) : GoError × World :=
  initZapLogger level w

/-- `InitSentry(options)`. -/
def InitSentry (answers : sentry.Answers) (options : sentry.ClientOptions) (w : World) :
    Outcome Unit × World :=
  let r := getSentryCore answers options w
  let sentrycore := r.1.1
  let err := r.1.2
  let w1 := r.2
  if err ≠ none ∨ w1.globalL.isNone then
    Panic "initialize sentry failed" [field.NamedError "init sentry" err.toValue] w1
  else
    let w2 := { w1 with globalL := w1.globalL.map (logsentry.AttachCoreToLogger sentrycore) }
    Info "initialize sentry ok" [] w2

/-! ### log.go: the panic-recovery bridge -/

/-- `strings.Contains(s, substr)` on the characters of the strings. -/
def stringsContains : List Char → List Char → Bool
  | [], substr => substr.isEmpty
  | c :: cs, substr => substr.isPrefixOf (c :: cs) || stringsContains cs substr

/-- What the Go runtime reports to a deferred call: the value `recover()` returns (nil
when no panic is in flight), the source file `runtime.Caller(skip)` reports for each
`skip`, and the text of `debug.Stack()`. -/
structure Goroutine where
  recovered : GoValue
  callerFile : Nat → String
  stack : String

/-- `isPanicFromLogger(skip)`: whether the file of frame `skip + 2` contains
"/zapcore/". -/
def isPanicFromLogger (g : Goroutine) (skip : Nat) : Bool :=
  let file := g.callerFile (skip + 2)
  stringsContains file.data "/zapcore/".data

/-- `fmt.Sprintf("%+v", err)` on the values of `GoValue`. -/
def sprintfPlusV : GoValue → String
  | .nil => "<nil>"
  | .str s => s
  | .err msg => msg
  | .other id => "\x7b" ++ toString id ++ "\x7d"

/-- `hub.Recover(err)` of sentry-go: with a client bound to the hub, an `error` or a
string is captured as one event and its id returned; any other value, and a hub without a
client, captures nothing and returns nil. The result is whether an event id was returned. -/
def hubRecover (err : GoValue) (w : World) : Bool × World :=
  if w.hubClient then
    match err with
    | .err _ =>
      (true, { w with sinks := { w.sinks with
        tracker := w.sinks.tracker ++ [TrackerEvent.ofRecovered err] } })
    | .str _ =>
      (true, { w with sinks := { w.sinks with
        tracker := w.sinks.tracker ++ [TrackerEvent.ofRecovered err] } })
    | _ => (false, w)
  else (false, w)

/-- `RecoverWithSentry(rethrow)`, run as a deferred call in goroutine state `g`. -/
def RecoverWithSentry (rethrow : Bool) (g : Goroutine) (w : World) : Outcome Unit × World :=
  let err := g.recovered
  if err = GoValue.nil then
    (Outcome.ret (), w)
  else
    match Error "RecoverWithSentry panic"
        [field.Reflect "err" err, field.Reflect "stack" (GoValue.str g.stack)] w with
    | (Outcome.ret _, w1) =>
      if isPanicFromLogger g 1 then
        (Outcome.ret (), w1)
      else
        let r := hubRecover err w1
        let w2 := if r.1 then r.2 else (hubRecover (GoValue.str (sprintfPlusV err)) r.2).2
        if rethrow then (Outcome.panic err, w2) else (Outcome.ret (), w2)
    | (Outcome.panic v, w1) => (Outcome.panic v, w1)
    | (Outcome.exit code, w1) => (Outcome.exit code, w1)

/-- The body of a unit of work guarded by `defer RecoverWithSentry(rethrow)`: it returns,
it raises a panic through the logger's own panic-level call, or other code in source file
`file` calls `panic(v)`. -/
inductive Body
  | returns
  | logPanic (msg : String) (fields : List zap.Field)
  | otherPanic (v : GoValue) (file : String)
  deriving DecidableEq, Repr

/-- The source file of this package's `log.go`. -/
def logGoFile : String := "github.com/liasece/log/log.go"

/-- The source file from which zap raises the panic of a panic-level call. -/
def zapEntryFile : String := "go.uber.org/zap@v1.10.0/zapcore/entry.go"

/-- The source file of the runtime's panic routines, from which the panic of a nil
dereference is raised. -/
def runtimePanicFile : String := "runtime/panic.go"

/-- The goroutine state seen by the deferred call after a panic with value `v` raised in
`file`: frames 0 and 1 are `isPanicFromLogger` and `RecoverWithSentry`, frame 2 is the
runtime's panic routine, frame 3 the function that raised the panic. -/
def panicking (v : GoValue) (file : String) (stack : String) : Goroutine :=
  { recovered := v,
    callerFile := fun skip =>
      match skip with
      | 0 => logGoFile
      | 1 => logGoFile
      | 2 => runtimePanicFile
      | 3 => file
      | _ => "",
    stack := stack }

/-- The goroutine state seen by the deferred call when the body returned normally. -/
def notPanicking (stack : String) : Goroutine :=
  { recovered := GoValue.nil,
    callerFile := fun skip =>
      match skip with
      | 0 => logGoFile
      | 1 => logGoFile
      | _ => "",
    stack := stack }

/-- Running `func() { defer RecoverWithSentry(rethrow); body() }()`: the body runs, then
the deferred call runs in the goroutine state the body left. `stack` is the text
`debug.Stack()` reports inside the deferred call. -/
def runRecovered (rethrow : Bool) (body : Body) (stack : String) (w : World) :
    Outcome Unit × World :=
  match body with
  | .returns => RecoverWithSentry rethrow (notPanicking stack) w
  | .logPanic msg fields =>
    match Panic msg fields w with
    | (Outcome.panic v, w1) =>
      let file := if w.globalL.isNone then runtimePanicFile else zapEntryFile
      RecoverWithSentry rethrow (panicking v file stack) w1
    | (Outcome.ret _, w1) => RecoverWithSentry rethrow (notPanicking stack) w1
    | (Outcome.exit code, w1) => (Outcome.exit code, w1)
  | .otherPanic v file => RecoverWithSentry rethrow (panicking v file stack) w

/-! ### Sequences of facade operations -/

/-- The operations of the facade. -/
inductive FacadeOp
  | InitLog (fileName level : String)
  | InitSentry (answers : sentry.Answers) (options : sentry.ClientOptions)
  | Debug (msg : String) (fields : List zap.Field)
  | Info (msg : String) (fields : List zap.Field)
  | Warn (msg : String) (fields : List zap.Field)
  | Error (msg : String) (fields : List zap.Field)
  | DPanic (msg : String) (fields : List zap.Field)
  | Panic (msg : String) (fields : List zap.Field)
  | Fatal (msg : String) (fields : List zap.Field)
  | With (fields : List zap.Field)
  | L (ctx : Context)
  | Sync (syncError : GoError)
  deriving DecidableEq, Repr

/-- Whether the operation is `InitLog`. -/
def FacadeOp.isInitLog : FacadeOp → Bool
  | .InitLog _ _ => true
  | _ => false

/-- Forgetting the returned value of a call. -/
def discard {α : Type} (r : Outcome α × World) : Outcome Unit × World :=
  match r.1 with
  | .ret _ => (Outcome.ret (), r.2)
  | .panic v => (Outcome.panic v, r.2)
  | .exit code => (Outcome.exit code, r.2)

/-- Running one facade operation. -/
def FacadeOp.run : FacadeOp → World → Outcome Unit × World
  | .InitLog fileName level, w => (Outcome.ret (), (log.InitLog fileName level w).2)
  | .InitSentry answers options, w => log.InitSentry answers options w
  | .Debug msg fields, w => log.Debug msg fields w
  | .Info msg fields, w => log.Info msg fields w
  | .Warn msg fields, w => log.Warn msg fields w
  | .Error msg fields, w => log.Error msg fields w
  | .DPanic msg fields, w => log.DPanic msg fields w
  | .Panic msg fields, w => log.Panic msg fields w
  | .Fatal msg fields, w => log.Fatal msg fields w
  | .With fields, w => discard (log.With fields w)
  | .L ctx, w => discard (log.L ctx w)
  | .Sync syncError, w => discard (log.Sync syncError w)

/-- The process states after each operation of a sequence, in order. A panic leaves the
process running (its caller may recover it); an exit ends the sequence. -/
def runOps : List FacadeOp → World → List World
  | [], _ => []
  | op :: ops, w =>
    match op.run w with
    | (Outcome.exit _, w1) => [w1]
    | (_, w1) => w1 :: runOps ops w1

/-- Whether the core of the global logger includes the remote-tracker sink. -/
def World.hasRemote (w : World) : Bool :=
  match w.globalL with
  | none => false
  | some l => l.core.includesRemote

/-- The level encoders of the console cores of the global logger. -/
def World.consoleLevelEncoders (w : World) : List LevelEncoder :=
  match w.globalL with
  | none => []
  | some l => l.core.consoleEncoders.map (fun enc => enc.EncodeLevel)

/-! ### Sample environments -/

/-- An operating system on which handle 1 is a console that accepts virtual-terminal
processing, handle 2 a console that refuses it, and every other handle is not a console. -/
def sampleSyscalls : encoder.Syscalls :=
  { GetConsoleMode := fun h =>
      if h = 1 ∨ h = 2 then Except.ok 7 else Except.error "The handle is invalid.",
    EnableVirtualTerminalProcessing := fun h _ =>
      if h = 1 then none else some "The parameter is incorrect." }

/-- The tracker side answering without errors. -/
def okAnswers : sentry.Answers := { initError := none, coreError := none }

/-- Sample tracker options. -/
def sampleOptions : sentry.ClientOptions := { Dsn := "https://key@sentry.example/1" }

/-- The process state after `init()` on a console stdout. -/
def World.afterInit : World := (init sampleSyscalls 1 World.start).2

/-- The process state after `init()` followed by a successful `InitSentry`. -/
def World.upgraded : World := (InitSentry okAnswers sampleOptions World.afterInit).2

/-- A Console+Remote state: the global logger as `init()` and `initZapLogger` build it
around a console core, upgraded by `AttachCoreToLogger` with a tracker core, and the
tracker's client bound to the hub; `logged` and `sinks` are what has been logged and
received so far. -/
def World.consoleRemote (enc : EncoderConfig) (enab : Level) (cfg : logsentry.Configuration)
    (logged : List Entry) (sinks : Sinks) : World :=
  { globalL := some (logsentry.AttachCoreToLogger (Core.sentryCore cfg)
      (zap.New (NewTee [Core.ioCore enc enab])
        [zap.LoggerOption.AddCaller, zap.LoggerOption.AddCallerSkip 1])),
    logged := logged, sinks := sinks, hubClient := true }

/-- The tracker configuration `getSentryCore` builds. -/
def sentryConfiguration : logsentry.Configuration :=
  { Level := Level.ErrorLevel, Tags := [("component", "system")],
    FlushTimeout := 5 * 1000000000 }

/-- The tracker side failing to build the core. -/
def failingAnswers : sentry.Answers := { initError := none, coreError := some "no client" }

end log

/-! ## Theorems -/

/-- C1: `getZapLevelEnablerFunc` returns the severity named by its argument for the six
names "debug", "info", "warn", "error", "fatal", "panic", and the debug severity for
every other string. -/
theorem getZapLevelEnablerFunc_spec :
    log.getZapLevelEnablerFunc "debug" = zapcore.Level.DebugLevel ∧
    log.getZapLevelEnablerFunc "info" = zapcore.Level.InfoLevel ∧
    log.getZapLevelEnablerFunc "warn" = zapcore.Level.WarnLevel ∧
    log.getZapLevelEnablerFunc "error" = zapcore.Level.ErrorLevel ∧
    log.getZapLevelEnablerFunc "fatal" = zapcore.Level.FatalLevel ∧
    log.getZapLevelEnablerFunc "panic" = zapcore.Level.PanicLevel ∧
    ∀ s : String, s ∉ ["debug", "info", "warn", "error", "fatal", "panic"] →
      log.getZapLevelEnablerFunc s = zapcore.Level.DebugLevel := by
  refine ⟨by decide, by decide, by decide, by decide, by decide, by decide, ?_⟩
  intro s hs
  simp only [List.mem_cons, List.mem_singleton, List.not_mem_nil, or_false, not_or] at hs
  obtain ⟨_, h2, h3, h4, h5, h6⟩ := hs
  simp [log.getZapLevelEnablerFunc, h2, h3, h4, h5, h6]

/-- C1 (witness): "dpanic", the empty string and "ERROR" are not level names and select
the debug severity. -/
theorem getZapLevelEnablerFunc_spec_witness :
    log.getZapLevelEnablerFunc "dpanic" = zapcore.Level.DebugLevel ∧
    log.getZapLevelEnablerFunc "" = zapcore.Level.DebugLevel ∧
    log.getZapLevelEnablerFunc "ERROR" = zapcore.Level.DebugLevel :=
  ⟨getZapLevelEnablerFunc_spec.2.2.2.2.2.2 "dpanic" (by decide),
   getZapLevelEnablerFunc_spec.2.2.2.2.2.2 "" (by decide),
   getZapLevelEnablerFunc_spec.2.2.2.2.2.2 "ERROR" (by decide)⟩

/-- C2: every optional-field constructor `Xp` returns, without panicking, the null field
`Reflect(key, nil)` for a nil pointer and the field `X(key, *p)` for a non-nil pointer. -/
theorem optional_field_constructors_spec (key : GoString) :
    (field.Boolp key Ptr.nil = Except.ok (field.Reflect key GoValue.nil) ∧
      ∀ v, field.Boolp key (Ptr.addr v) = Except.ok (field.Bool key v)) ∧
    (field.Complex128p key Ptr.nil = Except.ok (field.Reflect key GoValue.nil) ∧
      ∀ v, field.Complex128p key (Ptr.addr v) = Except.ok (field.Complex128 key v)) ∧
    (field.Complex64p key Ptr.nil = Except.ok (field.Reflect key GoValue.nil) ∧
      ∀ v, field.Complex64p key (Ptr.addr v) = Except.ok (field.Complex64 key v)) ∧
    (field.Float64p key Ptr.nil = Except.ok (field.Reflect key GoValue.nil) ∧
      ∀ v, field.Float64p key (Ptr.addr v) = Except.ok (field.Float64 key v)) ∧
    (field.Float32p key Ptr.nil = Except.ok (field.Reflect key GoValue.nil) ∧
      ∀ v, field.Float32p key (Ptr.addr v) = Except.ok (field.Float32 key v)) ∧
    (field.Intp key Ptr.nil = Except.ok (field.Reflect key GoValue.nil) ∧
      ∀ v, field.Intp key (Ptr.addr v) = Except.ok (field.Int key v)) ∧
    (field.Int64p key Ptr.nil = Except.ok (field.Reflect key GoValue.nil) ∧
      ∀ v, field.Int64p key (Ptr.addr v) = Except.ok (field.Int64 key v)) ∧
    (field.Int32p key Ptr.nil = Except.ok (field.Reflect key GoValue.nil) ∧
      ∀ v, field.Int32p key (Ptr.addr v) = Except.ok (field.Int32 key v)) ∧
    (field.Int16p key Ptr.nil = Except.ok (field.Reflect key GoValue.nil) ∧
      ∀ v, field.Int16p key (Ptr.addr v) = Except.ok (field.Int16 key v)) ∧
    (field.Int8p key Ptr.nil = Except.ok (field.Reflect key GoValue.nil) ∧
      ∀ v, field.Int8p key (Ptr.addr v) = Except.ok (field.Int8 key v)) ∧
    (field.Stringp key Ptr.nil = Except.ok (field.Reflect key GoValue.nil) ∧
      ∀ v, field.Stringp key (Ptr.addr v) = Except.ok (field.String key v)) ∧
    (field.Uintp key Ptr.nil = Except.ok (field.Reflect key GoValue.nil) ∧
      ∀ v, field.Uintp key (Ptr.addr v) = Except.ok (field.Uint key v)) ∧
    (field.Uint64p key Ptr.nil = Except.ok (field.Reflect key GoValue.nil) ∧
      ∀ v, field.Uint64p key (Ptr.addr v) = Except.ok (field.Uint64 key v)) ∧
    (field.Uint32p key Ptr.nil = Except.ok (field.Reflect key GoValue.nil) ∧
      ∀ v, field.Uint32p key (Ptr.addr v) = Except.ok (field.Uint32 key v)) ∧
    (field.Uint16p key Ptr.nil = Except.ok (field.Reflect key GoValue.nil) ∧
      ∀ v, field.Uint16p key (Ptr.addr v) = Except.ok (field.Uint16 key v)) ∧
    (field.Uint8p key Ptr.nil = Except.ok (field.Reflect key GoValue.nil) ∧
      ∀ v, field.Uint8p key (Ptr.addr v) = Except.ok (field.Uint8 key v)) ∧
    (field.Uintptrp key Ptr.nil = Except.ok (field.Reflect key GoValue.nil) ∧
      ∀ v, field.Uintptrp key (Ptr.addr v) = Except.ok (field.Uintptr key v)) ∧
    (field.Durationp key Ptr.nil = Except.ok (field.Reflect key GoValue.nil) ∧
      ∀ v, field.Durationp key (Ptr.addr v) = Except.ok (field.Duration key v)) := by
  refine ⟨⟨rfl, fun _ => rfl⟩, ⟨rfl, fun _ => rfl⟩, ⟨rfl, fun _ => rfl⟩, ⟨rfl, fun _ => rfl⟩, ⟨rfl, fun _ => rfl⟩, ⟨rfl, fun _ => rfl⟩, ⟨rfl, fun _ => rfl⟩, ⟨rfl, fun _ => rfl⟩, ⟨rfl, fun _ => rfl⟩, ⟨rfl, fun _ => rfl⟩, ⟨rfl, fun _ => rfl⟩, ⟨rfl, fun _ => rfl⟩, ⟨rfl, fun _ => rfl⟩, ⟨rfl, fun _ => rfl⟩, ⟨rfl, fun _ => rfl⟩, ⟨rfl, fun _ => rfl⟩, ⟨rfl, fun _ => rfl⟩, ⟨rfl, fun _ => rfl⟩⟩

/-- C3: `CheckIfTerminal(w)` is true exactly when `w` is an OS file whose console-mode
query succeeds and on which enabling virtual-terminal processing succeeds; it is false for
every writer that is not an OS file, for every file that is not a console, and whenever
enabling virtual-terminal processing fails. -/
theorem CheckIfTerminal_spec (sys : encoder.Syscalls) :
    (∀ w, encoder.CheckIfTerminal sys w = true ↔
      ∃ fd, w = encoder.Writer.osFile fd ∧ (∃ mode, sys.GetConsoleMode fd = Except.ok mode) ∧
        sys.EnableVirtualTerminalProcessing fd true = none) ∧
    (∀ id, encoder.CheckIfTerminal sys (encoder.Writer.other id) = false) ∧
    (∀ fd e, sys.GetConsoleMode fd = Except.error e →
      encoder.CheckIfTerminal sys (encoder.Writer.osFile fd) = false) ∧
    (∀ fd e, sys.EnableVirtualTerminalProcessing fd true = some e →
      encoder.CheckIfTerminal sys (encoder.Writer.osFile fd) = false) := by
  refine ⟨?_, ?_, ?_, ?_⟩
  · intro w
    cases w with
    | osFile fd =>
      cases hm : sys.GetConsoleMode fd with
      | ok mode => simp [encoder.CheckIfTerminal, encoder.initTerminal, hm]
      | error e => simp [encoder.CheckIfTerminal, hm]
    | other id => simp [encoder.CheckIfTerminal]
  · intro id
    simp [encoder.CheckIfTerminal]
  · intro fd e hm
    simp [encoder.CheckIfTerminal, hm]
  · intro fd e he
    cases hm : sys.GetConsoleMode fd with
    | ok mode => simp [encoder.CheckIfTerminal, encoder.initTerminal, hm, he]
    | error e => simp [encoder.CheckIfTerminal, hm]

/-- C3 (witness): on the sample operating system, a handle that is not a console and a
console that refuses virtual-terminal processing are both reported as not a terminal. -/
theorem CheckIfTerminal_spec_witness :
    encoder.CheckIfTerminal log.sampleSyscalls (encoder.Writer.osFile 3) = false ∧
    encoder.CheckIfTerminal log.sampleSyscalls (encoder.Writer.osFile 2) = false :=
  ⟨(CheckIfTerminal_spec log.sampleSyscalls).2.2.1 3 "The handle is invalid." rfl,
   (CheckIfTerminal_spec log.sampleSyscalls).2.2.2 2 "The parameter is incorrect." rfl⟩

/-- C4 (evaluation at the failing input): with stdout on a handle that is not a console
the detector reports false, yet `init()` builds the default console core with the color
level encoder, not the plain one. -/
theorem init_color_despite_no_terminal :
    encoder.CheckIfTerminal log.sampleSyscalls (log.Stdout 3) = false ∧
    (log.init log.sampleSyscalls 3 log.World.start).2.consoleLevelEncoders
      = [zapcore.LevelEncoder.MyColorLevelEncoder] ∧
    (log.init log.sampleSyscalls 3 log.World.start).2.consoleLevelEncoders
      ≠ [zapcore.LevelEncoder.MyLevelEncoder] := by
  decide

/-- The color mode of a console core is decided by the `colorLevel` argument of
`getConsoleCore`, and `init()` passes the constant true: whatever the operating system
answers to the terminal detector, `init()` returns normally with a default console core
built with the color level encoder. -/
theorem init_console_core_always_color (sys : encoder.Syscalls) (stdoutHandle : encoder.Handle)
    (w : log.World) (level : String) :
    (log.getConsoleCore true level).1.consoleEncoders.map (fun enc => enc.EncodeLevel)
      = [zapcore.LevelEncoder.MyColorLevelEncoder] ∧
    (log.getConsoleCore false level).1.consoleEncoders.map (fun enc => enc.EncodeLevel)
      = [zapcore.LevelEncoder.MyLevelEncoder] ∧
    (log.init sys stdoutHandle w).1 = Outcome.ret () ∧
    (log.init sys stdoutHandle w).2.consoleLevelEncoders
      = [zapcore.LevelEncoder.MyColorLevelEncoder] := by
  refine ⟨rfl, rfl, rfl, rfl⟩

/-- A leveled call on the global logger does not assign the package variable. -/
theorem callGlobal_globalL (lvl : zapcore.Level) (msg : String) (fields : List zap.Field)
    (w : log.World) : (log.callGlobal lvl msg fields w).2.globalL = w.globalL := by
  unfold log.callGlobal
  cases h : w.globalL <;> simp [h]

/-- A leveled call on the global logger keeps the remote-tracker sink. -/
theorem callGlobal_hasRemote (lvl : zapcore.Level) (msg : String) (fields : List zap.Field)
    (w : log.World) : (log.callGlobal lvl msg fields w).2.hasRemote = w.hasRemote := by
  simp only [log.World.hasRemote, callGlobal_globalL]

/-- Attaching the tracker core built without error yields a core with the remote sink. -/
theorem attach_includesRemote (cfg : logsentry.Configuration) (l : zap.Logger) :
    (logsentry.AttachCoreToLogger (zapcore.Core.sentryCore cfg) l).core.includesRemote = true := by
  simp [logsentry.AttachCoreToLogger, zapcore.NewTee, zapcore.Core.includesRemote,
    zapcore.includesRemoteAny]

/-- `InitSentry` never removes the remote-tracker sink. -/
theorem InitSentry_hasRemote (answers : sentry.Answers) (options : sentry.ClientOptions)
    (w : log.World) (h : w.hasRemote = true) :
    (log.InitSentry answers options w).2.hasRemote = true := by
  obtain ⟨g, lg, sk, hub⟩ := w
  cases g with
  | none => simp [log.World.hasRemote] at h
  | some l =>
    obtain ⟨ie, ce⟩ := answers
    cases ie <;> cases ce <;>
      simp_all [log.InitSentry, log.getSentryCore, log.NewSentryClientFromOptions,
        logsentry.NewCore, log.Panic, log.Info, callGlobal_globalL, log.World.hasRemote,
        attach_includesRemote]

/-- Every facade operation other than `InitLog` keeps the remote-tracker sink. -/
theorem FacadeOp_run_hasRemote (op : log.FacadeOp) (w : log.World)
    (hop : op.isInitLog = false) (h : w.hasRemote = true) :
    (op.run w).2.hasRemote = true := by
  cases op with
  | InitLog fileName level => simp [log.FacadeOp.isInitLog] at hop
  | InitSentry answers options => exact InitSentry_hasRemote answers options w h
  | Debug msg fields => simpa [log.FacadeOp.run, log.Debug, callGlobal_hasRemote] using h
  | Info msg fields => simpa [log.FacadeOp.run, log.Info, callGlobal_hasRemote] using h
  | Warn msg fields => simpa [log.FacadeOp.run, log.Warn, callGlobal_hasRemote] using h
  | Error msg fields => simpa [log.FacadeOp.run, log.Error, callGlobal_hasRemote] using h
  | DPanic msg fields => simpa [log.FacadeOp.run, log.DPanic, callGlobal_hasRemote] using h
  | Panic msg fields => simpa [log.FacadeOp.run, log.Panic, callGlobal_hasRemote] using h
  | Fatal msg fields => simpa [log.FacadeOp.run, log.Fatal, callGlobal_hasRemote] using h
  | With fields =>
    obtain ⟨g, lg, sk, hub⟩ := w
    cases g with
    | none => simp [log.World.hasRemote] at h
    | some l => simpa [log.FacadeOp.run, log.With, log.discard] using h
  | L ctx =>
    obtain ⟨g, lg, sk, hub⟩ := w
    cases g with
    | none => simp [log.World.hasRemote] at h
    | some l =>
      cases ctx <;> simpa [log.FacadeOp.run, log.L, log.withTraceContext, log.With, log.discard]
        using h
  | Sync syncError =>
    obtain ⟨g, lg, sk, hub⟩ := w
    cases g with
    | none => simp [log.World.hasRemote] at h
    | some l => simpa [log.FacadeOp.run, log.Sync, log.discard] using h

/-- C5 (counterexample): after `init()` and a successful `InitSentry` the global logger
includes the remote-tracker sink, and one subsequent `InitLog` leaves it without. -/
theorem InitLog_drops_remote_sink :
    log.World.upgraded.hasRemote = true ∧
    (log.runOps [log.FacadeOp.InitLog "" "info"] log.World.upgraded).map log.World.hasRemote
      = [false] := by
  decide

/-- C5 (amended): once the global logger includes the remote-tracker sink, it still
includes it after every operation of every sequence of facade operations that contains no
`InitLog`; `InitLog` is the transition back, leaving a console-only global logger. -/
theorem remote_sink_kept_without_InitLog (ops : List log.FacadeOp) (w : log.World)
    (h : w.hasRemote = true) (hops : ∀ op ∈ ops, op.isInitLog = false) :
    (∀ w1 ∈ log.runOps ops w, w1.hasRemote = true) ∧
    (∀ fileName level, (log.FacadeOp.run (log.FacadeOp.InitLog fileName level) w).2.hasRemote
      = false) := by
  constructor
  · induction ops generalizing w with
    | nil => intro w1 hw1; simp [log.runOps] at hw1
    | cons op ops ih =>
      have hop : op.isInitLog = false := hops op (List.mem_cons_self _ _)
      have hrest : ∀ o ∈ ops, o.isInitLog = false :=
        fun o ho => hops o (List.mem_cons_of_mem _ ho)
      have hstep := FacadeOp_run_hasRemote op w hop h
      intro w1 hw1
      unfold log.runOps at hw1
      rcases hrun : op.run w with ⟨o, w2⟩
      rw [hrun] at hw1 hstep
      cases o with
      | exit code =>
        simp at hw1
        subst hw1
        exact hstep
      | ret a =>
        simp at hw1
        rcases hw1 with hw1 | hw1
        · subst hw1; exact hstep
        · exact ih w2 hstep hrest w1 hw1
      | panic v =>
        simp at hw1
        rcases hw1 with hw1 | hw1
        · subst hw1; exact hstep
        · exact ih w2 hstep hrest w1 hw1
  · intro fileName level
    rfl

/-- C5 (amended, witness): from the upgraded state, a sequence of leveled calls, `With`,
`L`, `Sync` and a second `InitSentry` keeps the remote-tracker sink in every state it
passes through. -/
theorem remote_sink_kept_without_InitLog_witness :
    (log.runOps
      [log.FacadeOp.Info "a" [], log.FacadeOp.Panic "b" [], log.FacadeOp.With [],
       log.FacadeOp.L log.Context.plain, log.FacadeOp.Sync none,
       log.FacadeOp.InitSentry log.okAnswers log.sampleOptions,
       log.FacadeOp.Fatal "c" [], log.FacadeOp.Debug "d" []] log.World.upgraded).all
      log.World.hasRemote = true :=
  List.all_eq_true.mpr
    (remote_sink_kept_without_InitLog _ log.World.upgraded (by decide) (by decide)).1

/-- An error-level call on a logger returns normally. -/
theorem Logger_log_error_outcome (l : zap.Logger) (msg : String) (fields : List zap.Field)
    (s : zapcore.Sinks) : (l.log zapcore.Level.ErrorLevel msg fields s).1 = Outcome.ret () := by
  rfl

/-- A panic-level call on a logger panics with the message. -/
theorem Logger_log_panic_outcome (l : zap.Logger) (msg : String) (fields : List zap.Field)
    (s : zapcore.Sinks) :
    (l.log zapcore.Level.PanicLevel msg fields s).1 = Outcome.panic (GoValue.str msg) := by
  rfl

/-- `Error` on a set global logger returns normally, having handed over one record. -/
theorem Error_eq (l : zap.Logger) (logged : List zapcore.Entry) (sinks : zapcore.Sinks)
    (hubClient : Bool) (msg : String) (fields : List zap.Field) :
    log.Error msg fields
      { globalL := some l, logged := logged, sinks := sinks, hubClient := hubClient }
    = (Outcome.ret (),
       { globalL := some l,
         logged := logged ++
           [{ Level := zapcore.Level.ErrorLevel, Message := msg, Fields := fields }],
         sinks := (l.log zapcore.Level.ErrorLevel msg fields sinks).2,
         hubClient := hubClient }) := by
  simp only [log.Error, log.callGlobal, Logger_log_error_outcome]

/-- `Panic` on a set global logger panics with the message, having handed over one record. -/
theorem Panic_eq (l : zap.Logger) (logged : List zapcore.Entry) (sinks : zapcore.Sinks)
    (hubClient : Bool) (msg : String) (fields : List zap.Field) :
    log.Panic msg fields
      { globalL := some l, logged := logged, sinks := sinks, hubClient := hubClient }
    = (Outcome.panic (GoValue.str msg),
       { globalL := some l,
         logged := logged ++
           [{ Level := zapcore.Level.PanicLevel, Message := msg, Fields := fields }],
         sinks := (l.log zapcore.Level.PanicLevel msg fields sinks).2,
         hubClient := hubClient }) := by
  simp only [log.Panic, log.callGlobal, Logger_log_panic_outcome]

/-- The frame that raised the panic of a panic-level call lies in zap's `zapcore`. -/
theorem isPanicFromLogger_zapEntryFile (v : GoValue) (stack : String) :
    log.isPanicFromLogger (log.panicking v log.zapEntryFile stack) 1 = true := by
  rfl

/-- The deferred call recovers the value the panic was raised with. -/
theorem panicking_recovered (v : GoValue) (file stack : String) :
    (log.panicking v file stack).recovered = v := rfl

/-- The deferred call captures the stack text the runtime reports. -/
theorem panicking_stack (v : GoValue) (file stack : String) :
    (log.panicking v file stack).stack = stack := rfl

/-- A frame in `main.go` is not taken for the logger. -/
theorem isPanicFromLogger_main (v : GoValue) (stack : String) :
    log.isPanicFromLogger (log.panicking v "main.go" stack) 1 = false := by
  rfl

/-- An enabler that accepts the error level accepts the panic level. -/
theorem Enabled_panic_of_error (lv : zapcore.Level)
    (h : lv.Enabled zapcore.Level.ErrorLevel = true) :
    lv.Enabled zapcore.Level.PanicLevel = true := by
  cases lv <;> simp_all [zapcore.Level.Enabled, zapcore.Level.toInt]

/-- On a logger whose core is the Tee of a console core and a tracker core, a leveled call
at a level the tracker core accepts submits exactly the event of that record. -/
theorem Logger_log_tracker (l : zap.Logger) (enc : zapcore.EncoderConfig)
    (enab : zapcore.Level) (cfg : logsentry.Configuration)
    (hcore : l.core = zapcore.Core.multiCore
      [zapcore.Core.ioCore enc enab, zapcore.Core.sentryCore cfg])
    (lvl : zapcore.Level) (msg : String) (fields : List zap.Field) (s : zapcore.Sinks)
    (h : cfg.Level.Enabled lvl = true) :
    (l.log lvl msg fields s).2.tracker = s.tracker ++
      [zapcore.TrackerEvent.ofEntry
        { Level := lvl, Message := msg, Fields := l.context ++ fields }] := by
  unfold zap.Logger.log
  rw [hcore]
  cases he : enab.Enabled lvl <;> cases lvl <;>
    simp [zapcore.Core.Check, zapcore.checkAll, zapcore.Core.Write, he, h] <;>
    split <;> rfl

/-- The logger of a Console+Remote state has the Tee of its console core and the tracker
core as core, and no context fields. -/
theorem consoleRemote_globalL (enc : zapcore.EncoderConfig) (enab : zapcore.Level)
    (cfg : logsentry.Configuration) (logged : List zapcore.Entry) (sinks : zapcore.Sinks) :
    ∃ l : zap.Logger, l.core = zapcore.Core.multiCore
        [zapcore.Core.ioCore enc enab, zapcore.Core.sentryCore cfg] ∧ l.context = [] ∧
      log.World.consoleRemote enc enab cfg logged sinks
        = { globalL := some l, logged := logged, sinks := sinks, hubClient := true } :=
  ⟨_, rfl, rfl, rfl⟩

/-- The frame test of the bridge on the goroutine state after a panic raised in `file`. -/
theorem isPanicFromLogger_panicking (v : GoValue) (file stack : String) :
    log.isPanicFromLogger (log.panicking v file stack) 1
      = log.stringsContains file.data "/zapcore/".data := rfl

/-- C6 (counterexample): with the tracker attached by `InitSentry` and nothing submitted
so far, a panic caught by the deferred `RecoverWithSentry` leaves two events on the
tracker, not one, both for a panic raised by the logger's own panic-level call and for a
panic raised by other code. -/
theorem RecoverWithSentry_not_exactly_one_event :
    log.World.upgraded.sinks.tracker = [] ∧
    (log.runRecovered false (log.Body.logPanic "boom" []) "stk"
        log.World.upgraded).2.sinks.tracker.length = 2 ∧
    (log.runRecovered false (log.Body.otherPanic (GoValue.str "boom") "main.go") "stk"
        log.World.upgraded).2.sinks.tracker.length = 2 := by
  decide

/-- C6 (amended): in a Console+Remote state whose tracker sink accepts the error level,
every panic caught by a deferred `RecoverWithSentry` puts exactly two events on the
tracker: one event for the panic itself and, after it or before it, the event of the
bridge's own error-level record "RecoverWithSentry panic". For a panic raised by the
logger's own panic-level call the panic's event is that of the panic-level record,
through the sink, and the bridge submits nothing directly; for a panic raised by other
code (a non-nil value, raised outside zap's `zapcore`) it is the one event the bridge
submits directly. -/
theorem RecoverWithSentry_panic_event_and_bridge_record (enc : zapcore.EncoderConfig)
    (enab : zapcore.Level) (cfg : logsentry.Configuration) (logged : List zapcore.Entry)
    (sinks : zapcore.Sinks) (rethrow : Bool) (stack : String)
    (hlevel : cfg.Level.Enabled zapcore.Level.ErrorLevel = true) :
    (∀ (msg : String) (fields : List zap.Field),
      (log.runRecovered rethrow (log.Body.logPanic msg fields) stack
          (log.World.consoleRemote enc enab cfg logged sinks)).2.sinks.tracker
        = sinks.tracker ++
          [zapcore.TrackerEvent.ofEntry
            { Level := zapcore.Level.PanicLevel, Message := msg, Fields := fields },
           zapcore.TrackerEvent.ofEntry
            { Level := zapcore.Level.ErrorLevel, Message := "RecoverWithSentry panic",
              Fields := [field.Reflect "err" (GoValue.str msg),
                         field.Reflect "stack" (GoValue.str stack)] }]) ∧
    (∀ (v : GoValue) (file : String), v ≠ GoValue.nil →
      log.stringsContains file.data "/zapcore/".data = false →
      (log.runRecovered rethrow (log.Body.otherPanic v file) stack
          (log.World.consoleRemote enc enab cfg logged sinks)).2.sinks.tracker
        = sinks.tracker ++
          [zapcore.TrackerEvent.ofEntry
            { Level := zapcore.Level.ErrorLevel, Message := "RecoverWithSentry panic",
              Fields := [field.Reflect "err" v,
                         field.Reflect "stack" (GoValue.str stack)] },
           zapcore.TrackerEvent.ofRecovered
            (match v with
             | GoValue.err m => GoValue.err m
             | GoValue.str t => GoValue.str t
             | other => GoValue.str (log.sprintfPlusV other))]) := by
  obtain ⟨l, hcore, hctx, hw⟩ := consoleRemote_globalL enc enab cfg logged sinks
  have hpanic := Enabled_panic_of_error cfg.Level hlevel
  rw [hw]
  constructor
  · intro msg fields
    simp only [log.runRecovered, Panic_eq, Option.isNone_some, Bool.false_eq_true, if_false,
      log.RecoverWithSentry, panicking_recovered, panicking_stack, Error_eq,
      isPanicFromLogger_zapEntryFile, if_true, reduceCtorEq]
    rw [Logger_log_tracker l enc enab cfg hcore _ _ _ _ hlevel,
      Logger_log_tracker l enc enab cfg hcore _ _ _ _ hpanic, hctx]
    simp
  · intro v file hv hfile
    simp only [log.runRecovered, log.RecoverWithSentry, panicking_recovered, panicking_stack,
      if_neg hv, Error_eq, isPanicFromLogger_panicking, hfile, Bool.false_eq_true, if_false]
    cases v with
    | nil => exact absurd rfl hv
    | str t =>
      cases rethrow <;>
        simp [log.hubRecover, Logger_log_tracker l enc enab cfg hcore _ _ _ _ hlevel, hctx]
    | err m =>
      cases rethrow <;>
        simp [log.hubRecover, Logger_log_tracker l enc enab cfg hcore _ _ _ _ hlevel, hctx]
    | other id =>
      cases rethrow <;>
        simp [log.hubRecover, Logger_log_tracker l enc enab cfg hcore _ _ _ _ hlevel, hctx]

/-- C6 (amended, witness): in the state `getSentryCore` produces around a debug-level
console core, a panic with a value that is neither an error nor a string, raised in
`main.go`, leaves the bridge's record and one directly captured event on the tracker. -/
theorem RecoverWithSentry_panic_event_and_bridge_record_witness :
    (log.runRecovered true (log.Body.otherPanic (GoValue.other 7) "main.go") "stk"
        (log.World.consoleRemote
          { EncodeTime := zapcore.TimeEncoder.consoleTimeEncoder,
            EncodeLevel := zapcore.LevelEncoder.MyColorLevelEncoder,
            EncodeCaller := zapcore.CallerEncoder.MyCallerEncode }
          zapcore.Level.DebugLevel log.sentryConfiguration []
          { console := [], tracker := [] })).2.sinks.tracker
      = [] ++
        [zapcore.TrackerEvent.ofEntry
          { Level := zapcore.Level.ErrorLevel, Message := "RecoverWithSentry panic",
            Fields := [field.Reflect "err" (GoValue.other 7),
                       field.Reflect "stack" (GoValue.str "stk")] },
         zapcore.TrackerEvent.ofRecovered
          (GoValue.str (log.sprintfPlusV (GoValue.other 7)))] :=
  (RecoverWithSentry_panic_event_and_bridge_record _ zapcore.Level.DebugLevel
    log.sentryConfiguration [] { console := [], tracker := [] } true "stk" (by decide)).2
    (GoValue.other 7) "main.go" (by decide) (by decide)

/-- C7 (evaluation at the failing input): for a panic raised by the logger's own
panic-level call, the deferred `RecoverWithSentry(true)` returns normally and does not
re-raise, whatever the global logger is; for a panic raised by other code in `main.go` it
re-raises the value. -/
theorem RecoverWithSentry_true_swallows_logger_panic (l : zap.Logger)
    (logged : List zapcore.Entry) (sinks : zapcore.Sinks) (hubClient : Bool)
    (msg stack : String) (fields : List zap.Field) :
    (log.runRecovered true (log.Body.logPanic msg fields) stack
      { globalL := some l, logged := logged, sinks := sinks, hubClient := hubClient }).1
      = Outcome.ret () ∧
    (log.runRecovered true (log.Body.otherPanic (GoValue.str msg) "main.go") stack
      { globalL := some l, logged := logged, sinks := sinks, hubClient := hubClient }).1
      = Outcome.panic (GoValue.str msg) := by
  constructor
  · simp [log.runRecovered, Panic_eq, log.RecoverWithSentry, Error_eq,
      isPanicFromLogger_zapEntryFile, panicking_recovered, panicking_stack]
  · simp [log.runRecovered, log.RecoverWithSentry, Error_eq, isPanicFromLogger_main,
      panicking_recovered, panicking_stack]

/-- C8: with a global logger set, a deferred `RecoverWithSentry` that finds a panic in
flight with value `v` hands exactly one record to the global logger, at error severity,
with message "RecoverWithSentry panic" and the fields "err" carrying `v` and "stack"
carrying the captured stack text, in this order; with no panic in flight it returns
normally and leaves the whole process state (records and tracker events) unchanged. -/
theorem RecoverWithSentry_logs_one_record (rethrow : Bool) (g : log.Goroutine) (w : log.World)
    (hL : w.globalL.isSome = true) :
    (g.recovered ≠ GoValue.nil →
      (log.RecoverWithSentry rethrow g w).2.logged = w.logged ++
        [{ Level := zapcore.Level.ErrorLevel, Message := "RecoverWithSentry panic",
           Fields := [field.Reflect "err" g.recovered,
                      field.Reflect "stack" (GoValue.str g.stack)] }]) ∧
    (g.recovered = GoValue.nil →
      log.RecoverWithSentry rethrow g w = (Outcome.ret (), w)) := by
  obtain ⟨gl, logged, sinks, hub⟩ := w
  cases gl with
  | none => simp at hL
  | some l =>
    constructor
    · intro hv
      simp only [log.RecoverWithSentry, if_neg hv, Error_eq]
      cases log.isPanicFromLogger g 1 <;> cases rethrow <;> cases hub <;>
        cases g.recovered <;> simp [log.hubRecover, log.sprintfPlusV]
    · intro hv
      simp [log.RecoverWithSentry, hv]

/-- C8 (witness): in the upgraded state, a panic with value "boom" raised in `main.go` is
logged as one error-level record, and a deferred call with no panic in flight leaves the
state unchanged. -/
theorem RecoverWithSentry_logs_one_record_witness :
    (log.RecoverWithSentry false (log.panicking (GoValue.str "boom") "main.go" "stk")
        log.World.upgraded).2.logged = log.World.upgraded.logged ++
      [{ Level := zapcore.Level.ErrorLevel, Message := "RecoverWithSentry panic",
         Fields := [field.Reflect "err" (GoValue.str "boom"),
                    field.Reflect "stack" (GoValue.str "stk")] }] ∧
    log.RecoverWithSentry true (log.notPanicking "stk") log.World.upgraded
      = (Outcome.ret (), log.World.upgraded) :=
  ⟨(RecoverWithSentry_logs_one_record false
      (log.panicking (GoValue.str "boom") "main.go" "stk") log.World.upgraded
      (by decide)).1 (by decide),
   (RecoverWithSentry_logs_one_record true (log.notPanicking "stk") log.World.upgraded
      (by decide)).2 rfl⟩

/-! ### Digits -/

theorem fixedWidth_length (w n : Nat) : (time.fixedWidth w n).length = w := by
  induction w generalizing n with
  | zero => rfl
  | succ k ih => simp [time.fixedWidth, ih]

theorem fixedWidth_zero (w : Nat) : time.fixedWidth w 0 = List.replicate w '0' := by
  induction w with
  | zero => rfl
  | succ k ih =>
    have h0 : time.digitChar 0 = '0' := by decide
    simp only [time.fixedWidth, Nat.zero_div, Nat.zero_mod, ih, h0]
    exact (List.replicate_succ' k '0').symm

theorem fixedWidth_add (a b n : Nat) :
    time.fixedWidth (a + b) n = time.fixedWidth a (n / 10 ^ b) ++ time.fixedWidth b n := by
  induction b generalizing n with
  | zero => simp [time.fixedWidth]
  | succ k ih =>
    have hdiv : n / 10 / 10 ^ k = n / 10 ^ (k + 1) := by
      rw [Nat.div_div_eq_div_mul, pow_succ, Nat.mul_comm]
    rw [← Nat.add_assoc]
    simp only [time.fixedWidth, ih, hdiv, List.append_assoc]

theorem appendIntLoop_spec (w : Nat) :
    ∀ n fuel acc, n < 10 ^ (w + 1) → w + 1 ≤ fuel →
      ∃ ds, time.appendIntLoop fuel n acc = ds ++ acc ∧ ds.length ≤ w + 1 ∧
        List.replicate (w + 1 - ds.length) '0' ++ ds = time.fixedWidth (w + 1) n := by
  induction w with
  | zero =>
    intro n fuel acc hn hf
    obtain ⟨f, rfl⟩ : ∃ f, fuel = f + 1 := ⟨fuel - 1, by omega⟩
    have hn10 : ¬ n ≥ 10 := by omega
    refine ⟨[time.digitChar n], ?_, by simp, ?_⟩
    · simp [time.appendIntLoop, hn10]
    · have hm : n % 10 = n := Nat.mod_eq_of_lt (by omega)
      simp [time.fixedWidth, hm]
  | succ k ih =>
    intro n fuel acc hn hf
    obtain ⟨f, rfl⟩ : ∃ f, fuel = f + 1 := ⟨fuel - 1, by omega⟩
    by_cases hn10 : n ≥ 10
    · have hq : n / 10 < 10 ^ (k + 1) := by
        rw [Nat.div_lt_iff_lt_mul (by norm_num)]
        rw [pow_succ] at hn
        exact hn
      obtain ⟨ds, hds, hlen, hpad⟩ := ih (n / 10) f
        (time.digitChar (n - n / 10 * 10) :: acc) hq (by omega)
      have hmod : n - n / 10 * 10 = n % 10 := by omega
      refine ⟨ds ++ [time.digitChar (n % 10)], ?_, by simp; omega, ?_⟩
      · rw [time.appendIntLoop, if_pos hn10]
        rw [hmod] at hds
        simp only [hmod, hds, List.append_assoc, List.singleton_append]
      · have hl : k + 1 + 1 - (ds ++ [time.digitChar (n % 10)]).length = k + 1 - ds.length := by
          simp
        rw [hl, ← List.append_assoc, hpad]
        rfl
    · have hm : n % 10 = n := Nat.mod_eq_of_lt (by omega)
      have hd : n / 10 = 0 := Nat.div_eq_of_lt (by omega)
      refine ⟨[time.digitChar n], ?_, by simp, ?_⟩
      · simp [time.appendIntLoop, hn10]
      · simp only [List.length_singleton, Nat.add_sub_cancel]
        rw [time.fixedWidth, hd, hm, fixedWidth_zero]

theorem appendInt_natCast (b : List Char) (n w : Nat) (hw : w + 1 ≤ 20) (hn : n < 10 ^ (w + 1)) :
    time.appendInt b (n : Int) (w + 1) = b ++ time.fixedWidth (w + 1) n := by
  obtain ⟨ds, hds, _, hpad⟩ := appendIntLoop_spec w n 20 [] hn hw
  have hneg : ¬ ((n : Int) < 0) := by omega
  simp only [time.appendInt, if_neg hneg, Int.natAbs_ofNat, hds, List.append_nil,
    List.append_assoc, hpad]

theorem formatNanoLoop_eq (k n : Nat) (acc : List Char) :
    time.formatNanoLoop k n acc = time.fixedWidth k n ++ acc := by
  induction k generalizing n acc with
  | zero => rfl
  | succ j ih => simp [time.formatNanoLoop, time.fixedWidth, ih]

theorem formatNano_three (b : List Char) (n : Nat) :
    time.formatNano b n 3 = b ++ ['.'] ++ time.fixedWidth 3 (n / 1000000) := by
  have h9 : time.fixedWidth 9 n = time.fixedWidth 3 (n / 1000000) ++ time.fixedWidth 6 n := by
    have := fixedWidth_add 3 6 n
    simpa using this
  simp only [time.formatNano, formatNanoLoop_eq, List.append_nil, h9]
  rw [if_neg (by decide)]
  rw [List.take_left' (fixedWidth_length 3 _)]

/-! ### The layout of the console time encoder -/

theorem appendFormatLoop_chunk (t : time.Time) (fuel : Nat) (b layout pre suf : List Char)
    (std : time.Std) (hne : layout.isEmpty = false)
    (hc : time.nextStdChunk layout = (pre, some std, suf)) :
    time.appendFormatLoop t (fuel + 1) b layout
      = time.appendFormatLoop t fuel (time.appendStd t (b ++ pre) std) suf := by
  rw [time.appendFormatLoop, if_neg (by simp [hne])]
  simp only [hc]

theorem appendFormatLoop_nil (t : time.Time) (fuel : Nat) (b : List Char) :
    time.appendFormatLoop t (fuel + 1) b [] = b := by
  rw [time.appendFormatLoop]
  simp


theorem chunk_year : time.nextStdChunk "2006-01-02T15:04:05.000".data
    = ([], some time.Std.stdLongYear, "-01-02T15:04:05.000".data) := by decide

theorem chunk_month : time.nextStdChunk "-01-02T15:04:05.000".data
    = (['-'], some time.Std.stdZeroMonth, "-02T15:04:05.000".data) := by decide

theorem chunk_day : time.nextStdChunk "-02T15:04:05.000".data
    = (['-'], some time.Std.stdZeroDay, "T15:04:05.000".data) := by decide

theorem chunk_hour : time.nextStdChunk "T15:04:05.000".data
    = (['T'], some time.Std.stdHour, ":04:05.000".data) := by decide

theorem chunk_minute : time.nextStdChunk ":04:05.000".data
    = ([':'], some time.Std.stdZeroMinute, ":05.000".data) := by decide

theorem chunk_second : time.nextStdChunk ":05.000".data
    = ([':'], some time.Std.stdZeroSecond, ".000".data) := by decide

theorem chunk_frac : time.nextStdChunk ".000".data
    = ([], some (time.Std.stdFracSecond0 3), []) := by decide

theorem Format_console_eq (t : time.Time) :
    t.Format log.consoleTimeLayout = String.mk
      (time.formatNano (time.appendInt (time.appendInt (time.appendInt (time.appendInt
        (time.appendInt (time.appendInt [] t.Year 4 ++ ['-']) t.Month 2 ++ ['-']) t.Day 2 ++ ['T'])
        t.Hour 2 ++ [':']) t.Minute 2 ++ [':']) t.Second 2) t.Nanosecond 3) := by
  have hlen : log.consoleTimeLayout.length + 1 = 23 + 1 := by decide
  unfold time.Time.Format
  rw [hlen]
  show String.mk (time.appendFormatLoop t (23 + 1) [] "2006-01-02T15:04:05.000".data) = _
  rw [appendFormatLoop_chunk t _ _ _ _ _ _ (by decide) chunk_year,
    appendFormatLoop_chunk t _ _ _ _ _ _ (by decide) chunk_month,
    appendFormatLoop_chunk t _ _ _ _ _ _ (by decide) chunk_day,
    appendFormatLoop_chunk t _ _ _ _ _ _ (by decide) chunk_hour,
    appendFormatLoop_chunk t _ _ _ _ _ _ (by decide) chunk_minute,
    appendFormatLoop_chunk t _ _ _ _ _ _ (by decide) chunk_second,
    appendFormatLoop_chunk t _ _ _ _ _ _ (by decide) chunk_frac,
    appendFormatLoop_nil]
  simp only [time.appendStd, List.append_nil, List.nil_append]

/-! ### The calendar -/

theorem daysBeforeYear_decomp (a b c e : Nat) (hb : b ≤ 3) (hc : c ≤ 24) (he : e ≤ 3) :
    time.daysBeforeYear (400 * a + 100 * b + 4 * c + e)
      = 146097 * a + 36524 * b + 1461 * c + 365 * e := by
  unfold time.daysBeforeYear
  have h4 : (400 * a + 100 * b + 4 * c + e) / 4 = 100 * a + 25 * b + c := by omega
  have h100 : (400 * a + 100 * b + 4 * c + e) / 100 = 4 * a + b := by omega
  have h400 : (400 * a + 100 * b + 4 * c + e) / 400 = a := by omega
  rw [h4, h100, h400]
  omega

theorem leapDay_decomp (a b c e : Nat) (hb : b ≤ 3) (hc : c ≤ 24) (he : e ≤ 3) :
    time.leapDay (400 * a + 100 * b + 4 * c + e)
      = if e = 3 ∧ (c ≠ 24 ∨ b = 3) then 1 else 0 := by
  unfold time.leapDay
  have h4 : (400 * a + 100 * b + 4 * c + e + 1) % 4 = 0 ↔ e = 3 := by omega
  have h100 : (400 * a + 100 * b + 4 * c + e + 1) % 100 = 0 ↔ (e = 3 ∧ c = 24) := by omega
  have h400 : (400 * a + 100 * b + 4 * c + e + 1) % 400 = 0 ↔ (e = 3 ∧ c = 24 ∧ b = 3) := by
    omega
  simp only [h4, h100, h400]
  split <;> split <;> omega

theorem daysBeforeYear_succ (y : Nat) :
    time.daysBeforeYear (y + 1) = time.daysBeforeYear y + 365 + time.leapDay y := by
  unfold time.daysBeforeYear time.leapDay
  have h1 : (y + 1) / 4 = y / 4 + (if (y + 1) % 4 = 0 then 1 else 0) := by
    split <;> omega
  have h2 : (y + 1) / 100 = y / 100 + (if (y + 1) % 100 = 0 then 1 else 0) := by
    split <;> omega
  have h3 : (y + 1) / 400 = y / 400 + (if (y + 1) % 400 = 0 then 1 else 0) := by
    split <;> omega
  have h4 : (y + 1) % 100 = 0 → (y + 1) % 4 = 0 := by omega
  have h5 : (y + 1) % 400 = 0 → (y + 1) % 100 = 0 := by omega
  have h6 : y / 100 ≤ y / 4 := by omega
  rw [h1, h2, h3]
  by_cases c4 : (y + 1) % 4 = 0 <;> by_cases c100 : (y + 1) % 100 = 0 <;>
    by_cases c400 : (y + 1) % 400 = 0 <;> simp [c4, c100, c400] <;> omega

theorem daysBeforeYear_mono_succ (y1 y2 : Nat) (h : y1 < y2) :
    time.daysBeforeYear (y1 + 1) ≤ time.daysBeforeYear y2 := by
  induction y2 with
  | zero => omega
  | succ k ih =>
    rcases Nat.lt_succ_iff_lt_or_eq.mp h with h1 | h1
    · have := ih h1
      rw [daysBeforeYear_succ k]
      omega
    · subst h1
      exact le_refl _

theorem daysBeforeYear_mono (y1 y2 : Nat) (h : y1 ≤ y2) :
    time.daysBeforeYear y1 ≤ time.daysBeforeYear y2 := by
  rcases Nat.eq_or_lt_of_le h with h1 | h1
  · rw [h1]
  · have := daysBeforeYear_mono_succ y1 y2 h1
    rw [daysBeforeYear_succ] at this
    omega

theorem yearDay_core (d a q2 b c q4 e : Nat)
    (ha1 : 146097 * a ≤ d) (ha2 : d < 146097 * a + 146097)
    (hq1 : 36524 * q2 ≤ d - 146097 * a) (hq2 : d - 146097 * a < 36524 * q2 + 36524)
    (hb : b = q2 - q2 / 4)
    (hc1 : 1461 * c ≤ d - 146097 * a - 36524 * b)
    (hc2 : d - 146097 * a - 36524 * b < 1461 * c + 1461)
    (h41 : 365 * q4 ≤ d - 146097 * a - 36524 * b - 1461 * c)
    (h42 : d - 146097 * a - 36524 * b - 1461 * c < 365 * q4 + 365)
    (he : e = q4 - q4 / 4) :
    time.daysBeforeYear (400 * a + 100 * b + 4 * c + e) +
      (d - 146097 * a - 36524 * b - 1461 * c - 365 * e) = d ∧
    (d - 146097 * a - 36524 * b - 1461 * c - 365 * e) <
      365 + time.leapDay (400 * a + 100 * b + 4 * c + e) := by
  have hq2le : q2 ≤ 4 := by omega
  have hble : b ≤ 3 := by omega
  have hb2 : (q2 ≤ 3 ∧ b = q2) ∨ (q2 = 4 ∧ b = 3) := by omega
  clear hb
  have hcle : c ≤ 24 := by omega
  have hq4le : q4 ≤ 4 := by omega
  have hele : e ≤ 3 := by omega
  have he2 : (q4 ≤ 3 ∧ e = q4) ∨ (q4 = 4 ∧ e = 3) := by omega
  clear he
  rw [daysBeforeYear_decomp _ _ _ _ hble hcle hele, leapDay_decomp _ _ _ _ hble hcle hele]
  constructor
  · omega
  · split <;> omega

theorem mul_div_lo (x k : Nat) : k * (x / k) ≤ x := Nat.mul_div_le x k

theorem mul_div_hi (x k : Nat) (hk : 0 < k) : x < k * (x / k) + k := by
  have := Nat.lt_mul_div_succ x hk
  rw [Nat.mul_add] at this
  simpa using this

/-- The year index and the day of the year computed by `absYearDay`. -/
theorem absYearDay_char (abs : Nat) :
    ∃ y : Nat, (time.absYearDay abs).1 = (y : Int) + time.absoluteZeroYear ∧
      time.daysBeforeYear y + (time.absYearDay abs).2 = abs / 86400 ∧
      (time.absYearDay abs).2 < 365 + time.leapDay y := by
  have hc := yearDay_core (abs / 86400) _ _ _ _ _ _ (mul_div_lo _ 146097)
    (mul_div_hi _ 146097 (by norm_num)) (mul_div_lo _ 36524) (mul_div_hi _ 36524 (by norm_num))
    rfl (mul_div_lo _ 1461) (mul_div_hi _ 1461 (by norm_num)) (mul_div_lo _ 365)
    (mul_div_hi _ 365 (by norm_num)) rfl
  refine ⟨_, ?_, hc⟩
  simp only [time.absYearDay, time.secondsPerDay, time.daysPer400Years, time.daysPer100Years,
    time.daysPer4Years]

theorem isLeap_index (y : Nat) :
    time.isLeap ((y : Int) + time.absoluteZeroYear) = decide (time.leapDay y = 1) := by
  unfold time.isLeap time.leapDay time.absoluteZeroYear
  have h4 : ((y : Int) + -292277022399) % 4 = 0 ↔ (y + 1) % 4 = 0 := by omega
  have h100 : ((y : Int) + -292277022399) % 100 = 0 ↔ (y + 1) % 100 = 0 := by omega
  have h400 : ((y : Int) + -292277022399) % 400 = 0 ↔ (y + 1) % 400 = 0 := by omega
  by_cases c4 : (y + 1) % 4 = 0 <;> by_cases c100 : (y + 1) % 100 = 0 <;>
    by_cases c400 : (y + 1) % 400 = 0 <;> simp [h4, h100, h400, c4, c100, c400]

set_option maxRecDepth 100000 in
theorem absMonthDay_bounds_common :
    ∀ yday < 365, 1 ≤ (time.absMonthDay false yday).1 ∧ (time.absMonthDay false yday).1 ≤ 12 ∧
      1 ≤ (time.absMonthDay false yday).2 ∧ (time.absMonthDay false yday).2 ≤ 31 := by
  decide

set_option maxRecDepth 100000 in
theorem absMonthDay_bounds_leap :
    ∀ yday < 366, 1 ≤ (time.absMonthDay true yday).1 ∧ (time.absMonthDay true yday).1 ≤ 12 ∧
      1 ≤ (time.absMonthDay true yday).2 ∧ (time.absMonthDay true yday).2 ≤ 31 := by
  decide

set_option maxRecDepth 100000 in
theorem absMonthDay_step_common :
    ∀ yday < 364, time.monthDayKey (time.absMonthDay false yday)
      < time.monthDayKey (time.absMonthDay false (yday + 1)) := by
  decide

set_option maxRecDepth 100000 in
theorem absMonthDay_step_leap :
    ∀ yday < 365, time.monthDayKey (time.absMonthDay true yday)
      < time.monthDayKey (time.absMonthDay true (yday + 1)) := by
  decide

/-! ### Lexicographic order of fixed-width numerals -/

theorem chars_lt_cons (c : Char) (r1 r2 : List Char) (h : r1 < r2) : c :: r1 < c :: r2 :=
  List.Lex.cons h

theorem chars_lt_append (l r1 r2 : List Char) (h : r1 < r2) : l ++ r1 < l ++ r2 := by
  induction l with
  | nil => exact h
  | cons c cs ih => exact chars_lt_cons c _ _ ih

theorem digitChar_lt (x y : Nat) (hy : y < 10) (h : x < y) :
    time.digitChar x < time.digitChar y := by
  interval_cases y <;> interval_cases x <;> decide

theorem fixedWidth_lt (w : Nat) :
    ∀ a b r1 r2, a < 10 ^ w → b < 10 ^ w → a < b →
      time.fixedWidth w a ++ r1 < time.fixedWidth w b ++ r2 := by
  induction w with
  | zero => intro a b r1 r2 ha hb h; simp at ha hb; omega
  | succ k ih =>
    intro a b r1 r2 ha hb h
    have ha' : a / 10 < 10 ^ k := by
      rw [Nat.div_lt_iff_lt_mul (by norm_num)]; rw [pow_succ] at ha; exact ha
    have hb' : b / 10 < 10 ^ k := by
      rw [Nat.div_lt_iff_lt_mul (by norm_num)]; rw [pow_succ] at hb; exact hb
    simp only [time.fixedWidth, List.append_assoc, List.singleton_append]
    rcases Nat.lt_or_ge (a / 10) (b / 10) with hq | hq
    · exact ih _ _ _ _ ha' hb' hq
    · have heq : a / 10 = b / 10 := by omega
      rw [heq]
      apply chars_lt_append
      have hmod : a % 10 < b % 10 := by omega
      exact List.Lex.rel (digitChar_lt (a % 10) (b % 10) (Nat.mod_lt _ (by norm_num)) hmod)

/-- The stamp for a lexicographically smaller tuple of components is smaller. -/
theorem stampChars_lt (Y1 Y2 M1 M2 D1 D2 h1 h2 m1 m2 s1 s2 f1 f2 : Nat)
    (hY1 : Y1 < 10 ^ 4) (hY2 : Y2 < 10 ^ 4) (hM1 : M1 < 10 ^ 2) (hM2 : M2 < 10 ^ 2)
    (hD1 : D1 < 10 ^ 2) (hD2 : D2 < 10 ^ 2) (hh1 : h1 < 10 ^ 2) (hh2 : h2 < 10 ^ 2)
    (hm1 : m1 < 10 ^ 2) (hm2 : m2 < 10 ^ 2) (hs1 : s1 < 10 ^ 2) (hs2 : s2 < 10 ^ 2)
    (hf1 : f1 < 10 ^ 3) (hf2 : f2 < 10 ^ 3)
    (hlex : Y1 < Y2 ∨ (Y1 = Y2 ∧ (M1 < M2 ∨ (M1 = M2 ∧ (D1 < D2 ∨ (D1 = D2 ∧
      (h1 < h2 ∨ (h1 = h2 ∧ (m1 < m2 ∨ (m1 = m2 ∧ (s1 < s2 ∨ (s1 = s2 ∧ f1 < f2)))))))))))) :
    time.stampChars Y1 M1 D1 h1 m1 s1 f1 < time.stampChars Y2 M2 D2 h2 m2 s2 f2 := by
  unfold time.stampChars
  apply chars_lt_cons
  rcases hlex with h | ⟨rfl, hlex⟩
  · exact fixedWidth_lt 4 _ _ _ _ hY1 hY2 h
  apply chars_lt_append; apply chars_lt_cons
  rcases hlex with h | ⟨rfl, hlex⟩
  · exact fixedWidth_lt 2 _ _ _ _ hM1 hM2 h
  apply chars_lt_append; apply chars_lt_cons
  rcases hlex with h | ⟨rfl, hlex⟩
  · exact fixedWidth_lt 2 _ _ _ _ hD1 hD2 h
  apply chars_lt_append; apply chars_lt_cons
  rcases hlex with h | ⟨rfl, hlex⟩
  · exact fixedWidth_lt 2 _ _ _ _ hh1 hh2 h
  apply chars_lt_append; apply chars_lt_cons
  rcases hlex with h | ⟨rfl, hlex⟩
  · exact fixedWidth_lt 2 _ _ _ _ hm1 hm2 h
  apply chars_lt_append; apply chars_lt_cons
  rcases hlex with h | ⟨rfl, h⟩
  · exact fixedWidth_lt 2 _ _ _ _ hs1 hs2 h
  apply chars_lt_append; apply chars_lt_cons
  exact fixedWidth_lt 3 _ _ _ _ hf1 hf2 h

theorem timestampText_data (t : time.Time) :
    (time.timestampText t).data = time.stampChars t.Year.toNat t.Month t.Day t.Hour t.Minute
      t.Second (t.Nanosecond / 1000000) := by
  simp [time.timestampText, time.stampChars]

/-! ### Components of a time -/

theorem absClock_char (abs : Nat) :
    3600 * (time.absClock abs).1 + 60 * (time.absClock abs).2.1 + (time.absClock abs).2.2
      = abs % 86400 ∧
    (time.absClock abs).1 < 24 ∧ (time.absClock abs).2.1 < 60 ∧ (time.absClock abs).2.2 < 60 := by
  simp only [time.absClock, time.secondsPerDay]
  omega

/-- The date computed by `absDate`, by the year index and the day of the year. -/
theorem absDate_char (abs : Nat) :
    ∃ y yday : Nat, (time.absDate abs).1 = (y : Int) + time.absoluteZeroYear ∧
      time.daysBeforeYear y + yday = abs / 86400 ∧ yday < 365 + time.leapDay y ∧
      (time.absDate abs).2 = time.absMonthDay (decide (time.leapDay y = 1)) yday := by
  obtain ⟨y, hy, hd, hr⟩ := absYearDay_char abs
  refine ⟨y, (time.absYearDay abs).2, hy, hd, hr, ?_⟩
  simp only [time.absDate, hy, isLeap_index]

theorem leapDay_cases (y : Nat) : time.leapDay y = 0 ∨ time.leapDay y = 1 := by
  unfold time.leapDay
  split <;> simp

theorem absDate_bounds (abs : Nat) :
    1 ≤ (time.absDate abs).2.1 ∧ (time.absDate abs).2.1 ≤ 12 ∧
    1 ≤ (time.absDate abs).2.2 ∧ (time.absDate abs).2.2 ≤ 31 := by
  obtain ⟨y, yday, _, _, hr, hmd⟩ := absDate_char abs
  rw [hmd]
  rcases leapDay_cases y with h | h
  · rw [h] at hr
    simpa [h] using absMonthDay_bounds_common yday (by omega)
  · rw [h] at hr
    simpa [h] using absMonthDay_bounds_leap yday (by omega)

theorem absMonthDay_strictMono (leap : Bool) (y1 y2 : Nat) (h : y1 < y2)
    (h2 : y2 < 365 + (if leap then 1 else 0)) :
    time.monthDayKey (time.absMonthDay leap y1) < time.monthDayKey (time.absMonthDay leap y2) := by
  induction y2 with
  | zero => omega
  | succ k ih =>
    have hstep : time.monthDayKey (time.absMonthDay leap k)
        < time.monthDayKey (time.absMonthDay leap (k + 1)) := by
      cases leap with
      | false => exact absMonthDay_step_common k (by simp at h2; omega)
      | true => exact absMonthDay_step_leap k (by simp at h2; omega)
    rcases Nat.lt_succ_iff_lt_or_eq.mp h with h1 | h1
    · exact lt_trans (ih h1 (by omega)) hstep
    · subst h1; exact hstep

/-- A later day has a later date: a later year, or the same year and a later month and
day. -/
theorem absDate_lt_of_day_lt (a1 a2 : Nat) (h : a1 / 86400 < a2 / 86400) :
    (time.absDate a1).1 < (time.absDate a2).1 ∨
    ((time.absDate a1).1 = (time.absDate a2).1 ∧
      time.monthDayKey (time.absDate a1).2 < time.monthDayKey (time.absDate a2).2) := by
  obtain ⟨y1, r1, hy1, hd1, hr1, hmd1⟩ := absDate_char a1
  obtain ⟨y2, r2, hy2, hd2, hr2, hmd2⟩ := absDate_char a2
  rw [hy1, hy2, hmd1, hmd2]
  rcases Nat.lt_trichotomy y1 y2 with hlt | heq | hgt
  · left; omega
  · right
    subst heq
    refine ⟨rfl, ?_⟩
    apply absMonthDay_strictMono _ _ _ (by omega)
    rcases leapDay_cases y1 with hl | hl <;> simp [hl] <;> omega
  · exfalso
    have := daysBeforeYear_mono_succ _ _ hgt
    rw [daysBeforeYear_succ] at this
    omega

theorem absDate_eq_of_day_eq (a1 a2 : Nat) (h : a1 / 86400 = a2 / 86400) :
    time.absDate a1 = time.absDate a2 := by
  have hyd : time.absYearDay a1 = time.absYearDay a2 := by
    simp only [time.absYearDay, time.secondsPerDay, h]
  simp only [time.absDate, hyd]

/-- The stamp of a later absolute second is lexicographically later. -/
theorem stampChars_lt_of_abs_lt (a1 a2 f1 f2 : Nat) (h : a1 < a2)
    (hy1 : 0 ≤ (time.absDate a1).1 ∧ (time.absDate a1).1 ≤ 9999)
    (hy2 : 0 ≤ (time.absDate a2).1 ∧ (time.absDate a2).1 ≤ 9999)
    (hf1 : f1 < 1000) (hf2 : f2 < 1000) :
    time.stampChars (time.absDate a1).1.toNat (time.absDate a1).2.1 (time.absDate a1).2.2
        (time.absClock a1).1 (time.absClock a1).2.1 (time.absClock a1).2.2 f1
      < time.stampChars (time.absDate a2).1.toNat (time.absDate a2).2.1 (time.absDate a2).2.2
        (time.absClock a2).1 (time.absClock a2).2.1 (time.absClock a2).2.2 f2 := by
  obtain ⟨hc1, hh1, hm1, hs1⟩ := absClock_char a1
  obtain ⟨hc2, hh2, hm2, hs2⟩ := absClock_char a2
  obtain ⟨hM1a, hM1b, hD1a, hD1b⟩ := absDate_bounds a1
  obtain ⟨hM2a, hM2b, hD2a, hD2b⟩ := absDate_bounds a2
  apply stampChars_lt <;> try (norm_num; omega)
  rcases Nat.lt_or_ge (a1 / 86400) (a2 / 86400) with hd | hd
  · rcases absDate_lt_of_day_lt a1 a2 hd with hY | ⟨hY, hK⟩
    · left; omega
    · right
      refine ⟨by omega, ?_⟩
      unfold time.monthDayKey at hK
      rcases Nat.lt_trichotomy (time.absDate a1).2.1 (time.absDate a2).2.1 with hM | hM | hM
      · left; exact hM
      · right; refine ⟨hM, Or.inl ?_⟩; omega
      · exfalso; omega
  · have hday : a1 / 86400 = a2 / 86400 := by omega
    have hdate := absDate_eq_of_day_eq a1 a2 hday
    rw [hdate]
    refine Or.inr ⟨rfl, Or.inr ⟨rfl, Or.inr ⟨rfl, ?_⟩⟩⟩
    have hsod : a1 % 86400 < a2 % 86400 := by omega
    rcases Nat.lt_trichotomy (time.absClock a1).1 (time.absClock a2).1 with hH | hH | hH
    · left; exact hH
    · right
      refine ⟨hH, ?_⟩
      rcases Nat.lt_trichotomy (time.absClock a1).2.1 (time.absClock a2).2.1 with hMi | hMi | hMi
      · left; exact hMi
      · right; refine ⟨hMi, Or.inl ?_⟩; omega
      · exfalso; omega
    · exfalso; omega

/-- For a well-formed time whose year is in 0..9999 the absolute second is the local
Unix second shifted by the constant, without wrap-around. -/
theorem abs_eq_of_year_range (t : time.Time) (hw : t.wellFormed)
    (hy : 0 ≤ t.Year ∧ t.Year ≤ 9999) :
    (t.abs : Int) = t.sec + t.loc.lookup t.sec + time.unixToAbsolute := by
  obtain ⟨y, yday, hY, hd, hr, _⟩ := absDate_char t.abs
  have hYear : t.Year = (y : Int) + time.absoluteZeroYear := hY
  unfold time.absoluteZeroYear at hYear
  have hlo : 292277022399 ≤ y := by omega
  have hhi : y ≤ 292277032398 := by omega
  have h1 := daysBeforeYear_mono _ _ hlo
  have h2 := daysBeforeYear_mono_succ _ _ (Nat.lt_succ_of_le hhi)
  have e1 : time.daysBeforeYear 292277022399 = 106751990353566 := by decide
  have e2 : time.daysBeforeYear (292277032398 + 1) = 106751994005991 := by decide
  rw [e1] at h1
  rw [e2] at h2
  rw [daysBeforeYear_succ] at h2
  obtain ⟨_, hs1, hs2, ho1, ho2⟩ := hw
  have hp63 : (2 : Int) ^ 63 = 9223372036854775808 := by norm_num
  have hp31 : (2 : Int) ^ 31 = 2147483648 := by norm_num
  have hp64 : (2 : Int) ^ 64 = 18446744073709551616 := by norm_num
  rw [hp63] at hs1 hs2
  rw [hp31] at ho1 ho2
  have habs : t.abs = ((t.sec + t.loc.lookup t.sec + time.unixToAbsolute)
      % (2 ^ 64 : Int)).toNat := rfl
  rw [hp64] at habs
  unfold time.unixToAbsolute at habs ⊢
  omega

/-! ### The console time encoder -/

theorem time_components_bounds (t : time.Time) :
    t.Month < 10 ^ 2 ∧ t.Day < 10 ^ 2 ∧ t.Hour < 10 ^ 2 ∧ t.Minute < 10 ^ 2 ∧
      t.Second < 10 ^ 2 := by
  obtain ⟨_, hh, hm, hs⟩ := absClock_char t.abs
  obtain ⟨_, hM, _, hD⟩ := absDate_bounds t.abs
  simp only [time.Time.Month, time.Time.Day, time.Time.Hour, time.Time.Minute, time.Time.Second]
  norm_num
  omega

/-- The text the console time encoder renders is the fixed-width stamp of the components. -/
theorem renderTime_eq_timestampText (t : time.Time) (hy0 : 0 ≤ t.Year) (hy1 : t.Year ≤ 9999) :
    log.renderTime t = time.timestampText t := by
  obtain ⟨hM, hD, hh, hm, hs⟩ := time_components_bounds t
  have hYear : t.Year = ((t.Year.toNat : Nat) : Int) := (Int.toNat_of_nonneg hy0).symm
  have hY : t.Year.toNat < 10 ^ (3 + 1) := by norm_num; omega
  have hF := Format_console_eq t
  rw [hYear, appendInt_natCast _ _ 3 (by norm_num) hY,
    appendInt_natCast _ _ 1 (by norm_num) hM, appendInt_natCast _ _ 1 (by norm_num) hD,
    appendInt_natCast _ _ 1 (by norm_num) hh, appendInt_natCast _ _ 1 (by norm_num) hm,
    appendInt_natCast _ _ 1 (by norm_num) hs, formatNano_three] at hF
  apply String.ext
  simp only [log.renderTime, log.consoleEncodeTime, String.join, List.nil_append,
    List.foldl_cons, List.foldl_nil, List.singleton_append, List.cons_append, hF,
    String.data_append, time.timestampText]

theorem timestampText_length (t : time.Time) : (time.timestampText t).length = 25 := by
  simp [time.timestampText, String.length, fixedWidth_length]

/-- C9: for a timestamp whose year is in 0..9999 the console time encoder appends "[",
the formatted time and "]", and these concatenate to the 25 characters
`[YYYY-MM-DDTHH:MM:SS.mmm]`: the components of the time in its own location in fixed
width, `mmm` the whole milliseconds `nanoseconds / 1000000`, truncated. -/
theorem consoleEncodeTime_renders_timestamp (t : time.Time) (hy0 : 0 ≤ t.Year)
    (hy1 : t.Year ≤ 9999) :
    log.consoleEncodeTime t [] = ["[", t.Format log.consoleTimeLayout, "]"] ∧
    String.join (log.consoleEncodeTime t []) = time.timestampText t ∧
    (String.join (log.consoleEncodeTime t [])).length = 25 := by
  have h := renderTime_eq_timestampText t hy0 hy1
  unfold log.renderTime at h
  refine ⟨rfl, h, ?_⟩
  rw [h]
  exact timestampText_length t

/-- C9 (witness): the instant 2023-11-14 22:13:20.123456789 UTC renders as
"[2023-11-14T22:13:20.123]". -/
theorem consoleEncodeTime_renders_timestamp_witness :
    String.join (log.consoleEncodeTime time.sampleTime []) = time.timestampText time.sampleTime ∧
    time.timestampText time.sampleTime = "[2023-11-14T22:13:20.123]" :=
  ⟨(consoleEncodeTime_renders_timestamp time.sampleTime (by decide) (by decide)).2.1,
   by decide⟩

/-- C10 (counterexample): two instants in one location, forty minutes apart, on either
side of a change of the location's offset: the earlier one renders as the later text. -/
theorem renderTime_not_sortable_across_offset_change :
    time.sampleBeforeChange.loc = time.sampleAfterChange.loc ∧
    time.sampleBeforeChange.wellFormed ∧ time.sampleAfterChange.wellFormed ∧
    (0 ≤ time.sampleBeforeChange.Year ∧ time.sampleBeforeChange.Year ≤ 9999) ∧
    (0 ≤ time.sampleAfterChange.Year ∧ time.sampleAfterChange.Year ≤ 9999) ∧
    time.sampleBeforeChange.notAfter time.sampleAfterChange ∧
    1000000 ≤ time.sampleBeforeChange.nanosUntil time.sampleAfterChange ∧
    log.renderTime time.sampleBeforeChange = "[2021-11-07T01:30:00.000]" ∧
    log.renderTime time.sampleAfterChange = "[2021-11-07T01:10:00.000]" ∧
    ¬ (log.renderTime time.sampleBeforeChange ≤ log.renderTime time.sampleAfterChange) := by
  have h1 : log.renderTime time.sampleBeforeChange = "[2021-11-07T01:30:00.000]" := by decide
  have h2 : log.renderTime time.sampleAfterChange = "[2021-11-07T01:10:00.000]" := by decide
  refine ⟨rfl, by decide, by decide, by decide, by decide, by decide, by decide, h1, h2, ?_⟩
  rw [h1, h2]
  apply not_le_of_lt
  rw [String.lt_iff_toList_lt]
  decide

/-- C10 (amended): for two well-formed timestamps with years in 0..9999 at which the same
UTC offset is in effect, if the first is not later than the second then its rendered text
is lexicographically less than or equal to that of the second, and strictly less when
they are at least one millisecond apart. -/
theorem renderTime_sortable_same_offset (t1 t2 : time.Time)
    (hw1 : t1.wellFormed) (hw2 : t2.wellFormed)
    (hy1 : 0 ≤ t1.Year ∧ t1.Year ≤ 9999) (hy2 : 0 ≤ t2.Year ∧ t2.Year ≤ 9999)
    (hoff : t1.loc.lookup t1.sec = t2.loc.lookup t2.sec) (hle : t1.notAfter t2) :
    log.renderTime t1 ≤ log.renderTime t2 ∧
    (1000000 ≤ t1.nanosUntil t2 → log.renderTime t1 < log.renderTime t2) := by
  have ha1 := abs_eq_of_year_range t1 hw1 hy1
  have ha2 := abs_eq_of_year_range t2 hw2 hy2
  have hf1 : t1.nsec / 1000000 < 1000 := by have := hw1.1; omega
  have hf2 : t2.nsec / 1000000 < 1000 := by have := hw2.1; omega
  rw [renderTime_eq_timestampText t1 hy1.1 hy1.2, renderTime_eq_timestampText t2 hy2.1 hy2.2]
  have key : ∀ s1 s2 : String, s1.data < s2.data → s1 < s2 :=
    fun s1 s2 h => String.lt_iff_toList_lt.mpr h
  rcases hle with hsec | ⟨hsec, hns⟩
  · have hlt : t1.abs < t2.abs := by omega
    have h := stampChars_lt_of_abs_lt t1.abs t2.abs (t1.nsec / 1000000) (t2.nsec / 1000000) hlt
      hy1 hy2 hf1 hf2
    have hs : time.timestampText t1 < time.timestampText t2 := by
      apply key
      rw [timestampText_data, timestampText_data]
      exact h
    exact ⟨le_of_lt hs, fun _ => hs⟩
  · have habs : t1.abs = t2.abs := by omega
    have hcomp : t1.Year = t2.Year ∧ t1.Month = t2.Month ∧ t1.Day = t2.Day ∧
        t1.Hour = t2.Hour ∧ t1.Minute = t2.Minute ∧ t1.Second = t2.Second := by
      simp only [time.Time.Year, time.Time.Month, time.Time.Day, time.Time.Hour,
        time.Time.Minute, time.Time.Second, habs, and_self]
    obtain ⟨eY, eM, eD, eh, em, es⟩ := hcomp
    obtain ⟨bM, bD, bh, bm, bs⟩ := time_components_bounds t2
    have hY : t2.Year.toNat < 10 ^ 4 := by norm_num; omega
    have hstrict : t1.nsec / 1000000 < t2.nsec / 1000000 →
        time.timestampText t1 < time.timestampText t2 := by
      intro hf
      apply key
      rw [timestampText_data, timestampText_data, eY, eM, eD, eh, em, es]
      exact stampChars_lt _ _ _ _ _ _ _ _ _ _ _ _ _ _ hY hY bM bM bD bD bh bh bm bm bs bs
        (by simpa [time.Time.Nanosecond] using hf1) (by simpa [time.Time.Nanosecond] using hf2)
        (Or.inr ⟨rfl, Or.inr ⟨rfl, Or.inr ⟨rfl, Or.inr ⟨rfl, Or.inr ⟨rfl, Or.inr ⟨rfl, hf⟩⟩⟩⟩⟩⟩)
    constructor
    · rcases Nat.lt_or_ge (t1.nsec / 1000000) (t2.nsec / 1000000) with hf | hf
      · exact le_of_lt (hstrict hf)
      · have hfe : t1.nsec / 1000000 = t2.nsec / 1000000 := by omega
        apply le_of_eq
        apply String.ext
        rw [timestampText_data, timestampText_data, eY, eM, eD, eh, em, es]
        simp only [time.Time.Nanosecond, hfe]
    · intro hd
      apply hstrict
      unfold time.Time.nanosUntil at hd
      omega

/-- C10 (amended, witness): two instants in UTC within the same second, 1.54 ms apart,
render in order, strictly. -/
theorem renderTime_sortable_same_offset_witness :
    log.renderTime time.sampleTime ≤ log.renderTime time.sampleTimeLater ∧
    log.renderTime time.sampleTime < log.renderTime time.sampleTimeLater :=
  ⟨(renderTime_sortable_same_offset time.sampleTime time.sampleTimeLater (by decide)
      (by decide) (by decide) (by decide) (by decide) (by decide)).1,
   (renderTime_sortable_same_offset time.sampleTime time.sampleTimeLater (by decide)
      (by decide) (by decide) (by decide) (by decide) (by decide)).2 (by decide)⟩

/-! ### InitSentry -/

/-- An info-level call on a logger returns normally. -/
theorem Logger_log_info_outcome (l : zap.Logger) (msg : String) (fields : List zap.Field)
    (s : zapcore.Sinks) : (l.log zapcore.Level.InfoLevel msg fields s).1 = Outcome.ret () := by
  rfl

/-- `InitSentry` keeps the global logger set. -/
theorem InitSentry_globalL_set (answers : sentry.Answers) (options : sentry.ClientOptions)
    (w : log.World) (h : w.globalL.isSome = true) :
    (log.InitSentry answers options w).2.globalL.isSome = true := by
  obtain ⟨g, lg, sk, hub⟩ := w
  cases g with
  | none => simp at h
  | some l =>
    obtain ⟨ie, ce⟩ := answers
    cases ie <;> cases ce <;>
      simp [log.InitSentry, log.getSentryCore, log.NewSentryClientFromOptions,
        logsentry.NewCore, log.Panic, log.Info, callGlobal_globalL]

/-- Every facade operation keeps the global logger set. -/
theorem FacadeOp_run_globalL_set (op : log.FacadeOp) (w : log.World)
    (h : w.globalL.isSome = true) : (op.run w).2.globalL.isSome = true := by
  cases op with
  | InitLog fileName level => rfl
  | InitSentry answers options => exact InitSentry_globalL_set answers options w h
  | Debug msg fields => simpa [log.FacadeOp.run, log.Debug, callGlobal_globalL] using h
  | Info msg fields => simpa [log.FacadeOp.run, log.Info, callGlobal_globalL] using h
  | Warn msg fields => simpa [log.FacadeOp.run, log.Warn, callGlobal_globalL] using h
  | Error msg fields => simpa [log.FacadeOp.run, log.Error, callGlobal_globalL] using h
  | DPanic msg fields => simpa [log.FacadeOp.run, log.DPanic, callGlobal_globalL] using h
  | Panic msg fields => simpa [log.FacadeOp.run, log.Panic, callGlobal_globalL] using h
  | Fatal msg fields => simpa [log.FacadeOp.run, log.Fatal, callGlobal_globalL] using h
  | With fields =>
    obtain ⟨g, lg, sk, hub⟩ := w
    cases g with
    | none => simp at h
    | some l => simp [log.FacadeOp.run, log.With, log.discard]
  | L ctx =>
    obtain ⟨g, lg, sk, hub⟩ := w
    cases g with
    | none => simp at h
    | some l =>
      cases ctx <;> simp [log.FacadeOp.run, log.L, log.withTraceContext, log.With, log.discard]
  | Sync syncError =>
    obtain ⟨g, lg, sk, hub⟩ := w
    cases g with
    | none => simp at h
    | some l => simp [log.FacadeOp.run, log.Sync, log.discard]

/-- The global logger is never unset once the package is initialised: `init()` sets it
on every operating system, and it stays set in every state a sequence of facade
operations passes through. -/
theorem globalL_set_after_init (sys : encoder.Syscalls) (stdoutHandle : encoder.Handle)
    (w0 : log.World) (ops : List log.FacadeOp) :
    (log.init sys stdoutHandle w0).2.globalL.isSome = true ∧
    ∀ w ∈ log.runOps ops (log.init sys stdoutHandle w0).2, w.globalL.isSome = true := by
  refine ⟨rfl, ?_⟩
  have hgen : ∀ (ops : List log.FacadeOp) (w : log.World), w.globalL.isSome = true →
      ∀ w1 ∈ log.runOps ops w, w1.globalL.isSome = true := by
    intro ops
    induction ops with
    | nil => intro w _ w1 hw1; simp [log.runOps] at hw1
    | cons op ops ih =>
      intro w h w1 hw1
      have hstep := FacadeOp_run_globalL_set op w h
      unfold log.runOps at hw1
      rcases hrun : op.run w with ⟨o, w2⟩
      rw [hrun] at hw1 hstep
      cases o with
      | exit code =>
        simp at hw1
        subst hw1
        exact hstep
      | ret a =>
        simp at hw1
        rcases hw1 with hw1 | hw1
        · subst hw1; exact hstep
        · exact ih w2 hstep w1 hw1
      | panic v =>
        simp at hw1
        rcases hw1 with hw1 | hw1
        · subst hw1; exact hstep
        · exact ih w2 hstep w1 hw1
  exact hgen ops _ rfl

/-- C11: in every state with the global logger set (every state from `init()` on),
`InitSentry` either upgrades or fails atomically. If building the remote-tracker core
returns an error or the global logger is unset, it panics with the message "initialize
sentry failed" and leaves the global logger as it was, no tracker sink attached to it;
otherwise it returns normally and the global logger's core is the Tee of the previous
core and the remote-tracker sink. -/
theorem InitSentry_upgrades_or_fails (answers : sentry.Answers)
    (options : sentry.ClientOptions) (w : log.World) (hset : w.globalL.isSome = true) :
    ((answers.coreError ≠ none ∨ w.globalL.isNone = true) →
      (log.InitSentry answers options w).1
        = Outcome.panic (GoValue.str "initialize sentry failed") ∧
      (log.InitSentry answers options w).2.globalL = w.globalL) ∧
    (¬ (answers.coreError ≠ none ∨ w.globalL.isNone = true) →
      (log.InitSentry answers options w).1 = Outcome.ret () ∧
      (log.InitSentry answers options w).2.globalL = w.globalL.map (fun l =>
        { l with core := zapcore.Core.multiCore [l.core,
            zapcore.Core.sentryCore log.sentryConfiguration] })) := by
  obtain ⟨g, lg, sk, hub⟩ := w
  cases g with
  | none => simp at hset
  | some l =>
    obtain ⟨ie, ce⟩ := answers
    cases ce with
    | some msg =>
      constructor
      · intro _
        cases ie <;>
          simp [log.InitSentry, log.getSentryCore, log.NewSentryClientFromOptions,
            logsentry.NewCore, Panic_eq]
      · intro hn
        simp at hn
    | none =>
      constructor
      · intro hc
        simp at hc
      · intro _
        cases ie <;>
          simp [log.InitSentry, log.getSentryCore, log.NewSentryClientFromOptions,
            logsentry.NewCore, log.Info, log.callGlobal, Logger_log_info_outcome,
            logsentry.AttachCoreToLogger, zapcore.NewTee, log.sentryConfiguration]

/-- C11 (witness): after `init()`, `InitSentry` with a failing tracker core panics with
"initialize sentry failed" and leaves the console-only logger, and with a working one it
returns normally. -/
theorem InitSentry_upgrades_or_fails_witness :
    ((log.InitSentry log.failingAnswers log.sampleOptions log.World.afterInit).1
        = Outcome.panic (GoValue.str "initialize sentry failed") ∧
      (log.InitSentry log.failingAnswers log.sampleOptions log.World.afterInit).2.globalL
        = log.World.afterInit.globalL) ∧
    (log.InitSentry log.okAnswers log.sampleOptions log.World.afterInit).1 = Outcome.ret () :=
  ⟨(InitSentry_upgrades_or_fails log.failingAnswers log.sampleOptions log.World.afterInit
      (by decide)).1 (Or.inl (by decide)),
   ((InitSentry_upgrades_or_fails log.okAnswers log.sampleOptions log.World.afterInit
      (by decide)).2 (by decide)).1⟩
